import Mathlib

/-! Analytics HTTP gateway (`cmd/query/app/analytics/http_gateway.go`)

A shallow embedding of the gateway's route registration, its two
instrumentation layers and the deep-dependencies handler, together with the
parts of the Go standard library the handler calls (`encoding/json`,
`net/http`, `unicode/utf8`, `unicode/utf16`) as far as the handler exercises
them.

Conventions.
* A Go `string` holding payload data is a sequence of bytes (`Bytes`); a byte
  is a natural number below 256.  Header names, header values, route patterns
  and span names only ever hold ASCII literals here and are Lean `String`s.
* A Go slice is `Option (List α)`: `none` is the nil slice, `some []` the
  empty non-nil slice.
* Loops over a byte string take a fuel argument bounding the number of
  iterations; the callers pass the length of the input, which the loops never
  exceed.
-/

namespace Analytics

/-! ## Bytes and Go strings -/

/-- A byte string (the contents of a Go `string` or `[]byte`). -/
abbrev Bytes := List Nat

/-- Value `utf8.RuneError` (U+FFFD). -/
def RuneError : Nat := 0xFFFD

/-- Table `first` of `unicode/utf8`: information about the first byte of a
UTF-8 sequence.  `0xF0` is ASCII, `0xF1` is invalid, otherwise the low three
bits are the size and the high four bits index `acceptRanges`. -/
def first (b : Nat) : Nat :=
  if b < 0x80 then 0xF0
  else if b < 0xC2 then 0xF1
  else if b < 0xE0 then 0x02
  else if b = 0xE0 then 0x13
  else if b < 0xED then 0x03
  else if b = 0xED then 0x23
  else if b < 0xF0 then 0x03
  else if b = 0xF0 then 0x34
  else if b < 0xF4 then 0x04
  else if b = 0xF4 then 0x44
  else 0xF1

/-- Table `acceptRanges` of `unicode/utf8`: the accepted range `(lo, hi)` of
the second byte. -/
def acceptRanges (i : Nat) : Nat × Nat :=
  match i with
  | 0 => (0x80, 0xBF)
  | 1 => (0xA0, 0xBF)
  | 2 => (0x80, 0x9F)
  | 3 => (0x90, 0xBF)
  | 4 => (0x80, 0x8F)
  | _ => (0, 0)

/-- Function `utf8.DecodeRuneInString` (and `utf8.DecodeRune`): the first rune
of `s` and its width in bytes; `(RuneError, 0)` on empty input and
`(RuneError, 1)` on an invalid encoding.  The masks and shifts of the source
are written arithmetically: `b & 0x1F` is `b % 32`, `x << 6` is `x * 64`, and
the bitwise or of disjoint bit fields is their sum. -/
def decodeRune (s : Bytes) : Nat × Nat :=
  match s with
  | [] => (RuneError, 0)
  | s0 :: _ =>
    let x := first s0
    if x ≥ 0xF0 then
      (if x % 2 = 0 then s0 else RuneError, 1)
    else
      let sz := x % 8
      let accept := acceptRanges (x / 16)
      if s.length < sz then (RuneError, 1)
      else
        let s1 := s.getD 1 0
        if s1 < accept.1 ∨ accept.2 < s1 then (RuneError, 1)
        else if sz ≤ 2 then ((s0 % 32) * 64 + s1 % 64, 2)
        else
          let s2 := s.getD 2 0
          if s2 < 0x80 ∨ 0xBF < s2 then (RuneError, 1)
          else if sz ≤ 3 then ((s0 % 16) * 4096 + (s1 % 64) * 64 + s2 % 64, 3)
          else
            let s3 := s.getD 3 0
            if s3 < 0x80 ∨ 0xBF < s3 then (RuneError, 1)
            else ((s0 % 8) * 262144 + (s1 % 64) * 4096 + (s2 % 64) * 64 + s3 % 64, 4)

/-- Function `utf8.AppendRune` on an empty buffer (equally the bytes that
`utf8.EncodeRune` stores): the UTF-8 encoding of rune `r`; surrogates and
values above `MaxRune` are encoded as U+FFFD. -/
def encodeRune (r : Nat) : Bytes :=
  if r < 0x80 then [r]
  else if r ≤ 0x7FF then [0xC0 + r / 64, 0x80 + r % 64]
  else if r > 0x10FFFF ∨ (0xD800 ≤ r ∧ r ≤ 0xDFFF) then [0xEF, 0xBF, 0xBD]
  else if r ≤ 0xFFFF then [0xE0 + r / 4096, 0x80 + (r / 64) % 64, 0x80 + r % 64]
  else [0xF0 + r / 262144, 0x80 + (r / 4096) % 64, 0x80 + (r / 64) % 64, 0x80 + r % 64]

/-- The bytes of a Go string literal written in the source (its UTF-8
encoding). -/
def goStr (s : String) : Bytes :=
  s.toList.flatMap (fun c => encodeRune c.toNat)

/-- Loop of `utf8.ValidString` read off its documentation: `s` consists
entirely of validly encoded runes. -/
def validLoop : Nat → Bytes → Bool
  | 0, s => s.isEmpty
  | _ + 1, [] => true
  | fuel + 1, b :: rest =>
    if b < 0x80 then validLoop fuel rest
    else
      let d := decodeRune (b :: rest)
      if d.2 = 1 then false
      else validLoop fuel ((b :: rest).drop d.2)

/-- Function `utf8.ValidString`. -/
def ValidString (s : Bytes) : Bool := validLoop s.length s

/-! ## `encoding/json`: encoding -/

/-- The digit string `hex` of `encoding/json` (`"0123456789abcdef"`), as a
lookup of one nibble. -/
def hex (n : Nat) : Nat := if n < 10 then 0x30 + n else 0x57 + n

/-- Table `htmlSafeSet` of `encoding/json`: the ASCII bytes that are written
unescaped when HTML escaping is on. -/
def htmlSafeSet (b : Nat) : Bool :=
  decide (0x20 ≤ b ∧ b < 0x80 ∧ b ≠ 0x22 ∧ b ≠ 0x5C ∧ b ≠ 0x26 ∧ b ≠ 0x3C ∧ b ≠ 0x3E)

/-- The `switch b` of `appendString`: how an ASCII byte outside `htmlSafeSet`
is escaped. -/
def escapeByte (b : Nat) : Bytes :=
  if b = 0x5C ∨ b = 0x22 then [0x5C, b]
  else if b = 0x08 then [0x5C, 0x62]
  else if b = 0x0C then [0x5C, 0x66]
  else if b = 0x0A then [0x5C, 0x6E]
  else if b = 0x0D then [0x5C, 0x72]
  else if b = 0x09 then [0x5C, 0x74]
  else [0x5C, 0x75, 0x30, 0x30, hex (b / 16), hex (b % 16)]

/-- The loop of `appendString` with `escapeHTML = true`: the bytes between the
two quotes.  Runs of unescaped bytes, which the source copies in one piece,
are emitted byte by byte. -/
def appendStringLoop : Nat → Bytes → Bytes
  | 0, _ => []
  | _ + 1, [] => []
  | fuel + 1, b :: rest =>
    if b < 0x80 then
      (if htmlSafeSet b then [b] else escapeByte b) ++ appendStringLoop fuel rest
    else
      let d := decodeRune ((b :: rest).take 4)
      if d.1 = RuneError ∧ d.2 = 1 then
        [0x5C, 0x75, 0x66, 0x66, 0x66, 0x64] ++ appendStringLoop fuel rest
      else if d.1 = 0x2028 ∨ d.1 = 0x2029 then
        [0x5C, 0x75, 0x32, 0x30, 0x32, hex (d.1 % 16)]
          ++ appendStringLoop fuel ((b :: rest).drop d.2)
      else
        (b :: rest).take d.2 ++ appendStringLoop fuel ((b :: rest).drop d.2)

/-- Function `appendString` of `encoding/json` (the string encoder), with
`escapeHTML = true` as `json.NewEncoder` sets it. -/
def appendString (src : Bytes) : Bytes :=
  0x22 :: appendStringLoop src.length src ++ [0x22]

/-- The array encoder's loop: the elements separated by commas. -/
def encodeElems {α : Type} (enc : α → Bytes) : List α → Bytes
  | [] => []
  | [x] => enc x
  | x :: y :: rest => enc x ++ 0x2C :: encodeElems enc (y :: rest)

/-- The slice encoder of `encoding/json`: `null` for a nil slice, otherwise
the elements between brackets. -/
def encodeSlice {α : Type} (enc : α → Bytes) : Option (List α) → Bytes
  | none => goStr "null"
  | some xs => 0x5B :: encodeElems enc xs ++ [0x5D]

/-! ## The payload types -/

/-- Go struct `TDdgPayloadEntry`; JSON fields `operation`, `service` in
declaration order. -/
structure TDdgPayloadEntry where
  Operation : Bytes
  Service : Bytes
deriving DecidableEq, Repr

/-- Go struct `Attribute`; JSON fields `key`, `value`. -/
structure Attribute where
  Key : Bytes
  Value : Bytes
deriving DecidableEq, Repr

/-- Go struct `TDdgPayloadPath`; JSON fields `path`, `attributes`. -/
structure TDdgPayloadPath where
  Path : Option (List TDdgPayloadEntry)
  Attributes : Option (List Attribute)
deriving DecidableEq, Repr

/-- Go struct `TDdgPayload`; JSON field `dependencies`. -/
structure TDdgPayload where
  Dependencies : Option (List TDdgPayloadPath)
deriving DecidableEq, Repr

/-- The struct encoder of `encoding/json` at `TDdgPayloadEntry`. -/
def encodeEntry (e : TDdgPayloadEntry) : Bytes :=
  goStr "\x7b\"operation\":" ++ appendString e.Operation
    ++ goStr ",\"service\":" ++ appendString e.Service ++ goStr "\x7d"

/-- The struct encoder of `encoding/json` at `Attribute`. -/
def encodeAttribute (a : Attribute) : Bytes :=
  goStr "\x7b\"key\":" ++ appendString a.Key
    ++ goStr ",\"value\":" ++ appendString a.Value ++ goStr "\x7d"

/-- The struct encoder of `encoding/json` at `TDdgPayloadPath`. -/
def encodePath (p : TDdgPayloadPath) : Bytes :=
  goStr "\x7b\"path\":" ++ encodeSlice encodeEntry p.Path
    ++ goStr ",\"attributes\":" ++ encodeSlice encodeAttribute p.Attributes ++ goStr "\x7d"

/-- Function `json.Marshal` at `TDdgPayload` with HTML escaping on (the state
of the buffer in `Encoder.Encode` before the newline is appended).  None of
the types involved has an encoding error. -/
def Marshal (p : TDdgPayload) : Bytes :=
  goStr "\x7b\"dependencies\":" ++ encodeSlice encodePath p.Dependencies ++ goStr "\x7d"

/-- The payload built by `getDeepDependencies`. -/
def fixture : TDdgPayload :=
  { Dependencies := some [
      { Path := some [
          { Service := goStr "serviceA", Operation := goStr "opA" },
          { Service := goStr "serviceB", Operation := goStr "opB" } ],
        Attributes := some [
          { Key := goStr "exemplar_trace_id", Value := goStr "abc123" } ] } ] }

/-- The body that the specification's scenario displays. -/
def scenarioBody : Bytes :=
  goStr ("\x7b\"dependencies\":[\x7b\"path\":[\x7b\"operation\":\"opA\",\"service\":\"serviceA\"\x7d,"
    ++ "\x7b\"operation\":\"opB\",\"service\":\"serviceB\"\x7d],"
    ++ "\"attributes\":[\x7b\"key\":\"exemplar_trace_id\",\"value\":\"abc123\"\x7d]\x7d]\x7d")

/-! ## `encoding/json`: decoding

The decoder is modelled on the compact form the encoder emits: object members
in declaration order under their exact names, no insignificant white space
inside the value, white space allowed after it.  On such input it returns what
`json.Unmarshal` into a zero `TDdgPayload` returns; other input, some of which
`json.Unmarshal` accepts, is rejected with `none`. -/

/-- Consume the literal `lit` at the start of the input. -/
def expectLit : Bytes → Bytes → Option Bytes
  | [], inp => some inp
  | _ :: _, [] => none
  | c :: cs, d :: ds => if c = d then expectLit cs ds else none

/-- The value of one hexadecimal digit, as in the loop of `getu4`. -/
def hexVal (c : Nat) : Option Nat :=
  if 0x30 ≤ c ∧ c ≤ 0x39 then some (c - 0x30)
  else if 0x61 ≤ c ∧ c ≤ 0x66 then some (c - 0x61 + 10)
  else if 0x41 ≤ c ∧ c ≤ 0x46 then some (c - 0x41 + 10)
  else none

/-- Function `getu4` of `encoding/json`: the rune of a `\uXXXX` escape at the
start of `s`, or `none` (the source's `-1`). -/
def getu4 (s : Bytes) : Option Nat :=
  match s with
  | b0 :: b1 :: c0 :: c1 :: c2 :: c3 :: _ =>
    if b0 = 0x5C ∧ b1 = 0x75 then
      match hexVal c0, hexVal c1, hexVal c2, hexVal c3 with
      | some v0, some v1, some v2, some v3 => some (((v0 * 16 + v1) * 16 + v2) * 16 + v3)
      | _, _, _, _ => none
    else none
  | _ => none

/-- Function `utf16.DecodeRune`, the second argument being `none` when
`getu4` found no escape. -/
def utf16DecodeRune (r1 : Nat) (r2 : Option Nat) : Nat :=
  match r2 with
  | some r2 =>
    if 0xD800 ≤ r1 ∧ r1 < 0xDC00 ∧ 0xDC00 ≤ r2 ∧ r2 < 0xE000 then
      (r1 - 0xD800) * 1024 + (r2 - 0xDC00) + 0x10000
    else RuneError
  | none => RuneError

/-- The loop of `unquoteBytes` of `encoding/json`, merged with the scanner's
search for the closing quote: reads a string body up to the closing quote and
returns the decoded bytes and the input after the quote.  `acc` holds the
bytes decoded so far. -/
def unquoteLoop : Nat → Bytes → Bytes → Option (Bytes × Bytes)
  | 0, _, _ => none
  | _ + 1, [], _ => none
  | fuel + 1, c :: rest, acc =>
    if c = 0x22 then some (acc, rest)
    else if c = 0x5C then
      match rest with
      | [] => none
      | e :: rest1 =>
        if e = 0x22 ∨ e = 0x5C ∨ e = 0x2F then unquoteLoop fuel rest1 (acc ++ [e])
        else if e = 0x62 then unquoteLoop fuel rest1 (acc ++ [0x08])
        else if e = 0x66 then unquoteLoop fuel rest1 (acc ++ [0x0C])
        else if e = 0x6E then unquoteLoop fuel rest1 (acc ++ [0x0A])
        else if e = 0x72 then unquoteLoop fuel rest1 (acc ++ [0x0D])
        else if e = 0x74 then unquoteLoop fuel rest1 (acc ++ [0x09])
        else if e = 0x75 then
          match getu4 (c :: rest) with
          | none => none
          | some rr =>
            let after := rest.drop 5
            if 0xD800 ≤ rr ∧ rr < 0xE000 then
              let dec := utf16DecodeRune rr (getu4 after)
              if dec ≠ RuneError then unquoteLoop fuel (after.drop 6) (acc ++ encodeRune dec)
              else unquoteLoop fuel after (acc ++ encodeRune RuneError)
            else unquoteLoop fuel after (acc ++ encodeRune rr)
        else none
    else if c < 0x20 then none
    else if c < 0x80 then unquoteLoop fuel rest (acc ++ [c])
    else
      let d := decodeRune (c :: rest)
      unquoteLoop fuel ((c :: rest).drop d.2) (acc ++ encodeRune d.1)

/-- Decode a JSON string literal into a Go string. -/
def decodeString (inp : Bytes) : Option (Bytes × Bytes) :=
  match inp with
  | [] => none
  | c :: rest => if c = 0x22 then unquoteLoop (rest.length + 1) rest [] else none

/-- The array decoder's loop after the opening bracket of a non-empty array:
an element, then a comma and more, or the closing bracket. -/
def decodeElems {α : Type} (dec : Bytes → Option (α × Bytes)) :
    Nat → Bytes → List α → Option (List α × Bytes)
  | 0, _, _ => none
  | fuel + 1, inp, acc =>
    match dec inp with
    | none => none
    | some (x, rest) =>
      match rest with
      | [] => none
      | c :: rest1 =>
        if c = 0x2C then decodeElems dec fuel rest1 (acc ++ [x])
        else if c = 0x5D then some (acc ++ [x], rest1)
        else none

/-- Decode a JSON value into a Go slice: `null` gives the nil slice, `[]` the
empty non-nil slice, an array its elements in order. -/
def decodeSlice {α : Type} (dec : Bytes → Option (α × Bytes)) (inp : Bytes) :
    Option (Option (List α) × Bytes) :=
  match expectLit (goStr "null") inp with
  | some rest => some (none, rest)
  | none =>
    match inp with
    | [] => none
    | c :: rest =>
      if c = 0x5B then
        match rest with
        | [] => none
        | c1 :: rest1 =>
          if c1 = 0x5D then some (some [], rest1)
          else
            match decodeElems dec (rest.length + 1) rest [] with
            | some (xs, rest2) => some (some xs, rest2)
            | none => none
      else none

/-- Decode an object into `TDdgPayloadEntry`. -/
def decodeEntry (inp : Bytes) : Option (TDdgPayloadEntry × Bytes) := do
  let inp ← expectLit (goStr "\x7b\"operation\":") inp
  let (op, inp) ← decodeString inp
  let inp ← expectLit (goStr ",\"service\":") inp
  let (svc, inp) ← decodeString inp
  let inp ← expectLit (goStr "\x7d") inp
  pure ({ Operation := op, Service := svc }, inp)

/-- Decode an object into `Attribute`. -/
def decodeAttribute (inp : Bytes) : Option (Attribute × Bytes) := do
  let inp ← expectLit (goStr "\x7b\"key\":") inp
  let (k, inp) ← decodeString inp
  let inp ← expectLit (goStr ",\"value\":") inp
  let (v, inp) ← decodeString inp
  let inp ← expectLit (goStr "\x7d") inp
  pure ({ Key := k, Value := v }, inp)

/-- Decode an object into `TDdgPayloadPath`. -/
def decodePath (inp : Bytes) : Option (TDdgPayloadPath × Bytes) := do
  let inp ← expectLit (goStr "\x7b\"path\":") inp
  let (path, inp) ← decodeSlice decodeEntry inp
  let inp ← expectLit (goStr ",\"attributes\":") inp
  let (attrs, inp) ← decodeSlice decodeAttribute inp
  let inp ← expectLit (goStr "\x7d") inp
  pure ({ Path := path, Attributes := attrs }, inp)

/-- Decode an object into `TDdgPayload`. -/
def decodePayload (inp : Bytes) : Option (TDdgPayload × Bytes) := do
  let inp ← expectLit (goStr "\x7b\"dependencies\":") inp
  let (deps, inp) ← decodeSlice decodePath inp
  let inp ← expectLit (goStr "\x7d") inp
  pure ({ Dependencies := deps }, inp)

/-- Skip JSON white space (space, tab, carriage return, line feed). -/
def skipSpace : Bytes → Bytes
  | [] => []
  | c :: rest =>
    if c = 0x20 ∨ c = 0x09 ∨ c = 0x0D ∨ c = 0x0A then skipSpace rest else c :: rest

/-- Function `json.Unmarshal` into a zero `TDdgPayload`: the value, then
nothing but white space. -/
def Unmarshal (data : Bytes) : Option TDdgPayload :=
  match decodePayload data with
  | some (p, rest) => if skipSpace rest = [] then some p else none
  | none => none

/-! ## `net/http`: headers and the response writer -/

/-- Type `http.Header`, a map from header name to values, as an association
list.  The names used here are already in canonical form. -/
abbrev Header := List (String × List String)

/-- Method `Header.Del`. -/
def Header.Del (h : Header) (key : String) : Header :=
  h.filter (fun e => e.1 != key)

/-- Method `Header.Set`: the entry for `key` becomes the single value. -/
def Header.Set (h : Header) (key value : String) : Header :=
  (key, [value]) :: Header.Del h key

/-- Method `Header.Values`: all values of `key`. -/
def Header.Values (h : Header) (key : String) : List String :=
  match h.find? (fun e => e.1 == key) with
  | some e => e.2
  | none => []

/-- Method `Header.Get`: the first value of `key`, or the empty string. -/
def Header.Get (h : Header) (key : String) : String :=
  (Header.Values h key).headD ""

/-- What one call of `Write` on the response writer does.  `ok` accepts all
the bytes.  `fail committed n err` returns the error `err`; when `committed`
holds the call had already sent the response header and accepted the first `n`
bytes (the behaviour of the `net/http` server's writer, which sends the header
before it writes), otherwise it left the response untouched (a hijacked
connection, a writer that has timed out, a test double). -/
inductive WriteOutcome where
  | ok
  | fail (committed : Bool) (n : Nat) (err : String)
deriving DecidableEq, Repr

/-- State of an `http.ResponseWriter`: the header map handlers edit, the
status and header snapshot that were sent (`none` until the header is
written), the body bytes accepted so far, and the outcomes of the coming
`Write` calls (a call beyond the end of the list succeeds). -/
structure ResponseWriter where
  header : Header
  sent : Option (Nat × Header)
  body : Bytes
  script : List WriteOutcome
deriving DecidableEq, Repr

/-- A response writer as the server hands it to a handler: nothing sent yet. -/
def ResponseWriter.fresh (header : Header) (script : List WriteOutcome) : ResponseWriter :=
  { header := header, sent := none, body := [], script := script }

/-- Method `ResponseWriter.WriteHeader`: sends the status with the current
header map; a second call is ignored. -/
def ResponseWriter.WriteHeader (w : ResponseWriter) (code : Nat) : ResponseWriter :=
  match w.sent with
  | none => { w with sent := some (code, w.header) }
  | some _ => w

/-- Method `ResponseWriter.Write`: an implicit `WriteHeader(200)` when no
header was sent, then the bytes; returns the writer and the error, if any. -/
def ResponseWriter.Write (w : ResponseWriter) (data : Bytes) : ResponseWriter × Option String :=
  match w.script with
  | [] =>
    let w1 := w.WriteHeader 200
    ({ w1 with body := w1.body ++ data }, none)
  | WriteOutcome.ok :: rest =>
    let w1 := w.WriteHeader 200
    ({ w1 with body := w1.body ++ data, script := rest }, none)
  | WriteOutcome.fail true n err :: rest =>
    let w1 := w.WriteHeader 200
    ({ w1 with body := w1.body ++ data.take n, script := rest }, some err)
  | WriteOutcome.fail false _ err :: rest =>
    ({ w with script := rest }, some err)

/-- Method `(*json.Encoder).Encode` at `TDdgPayload` for a fresh encoder on
`w`: the JSON encoding followed by a newline, in one `Write`; the error is the
write error. -/
def Encode (w : ResponseWriter) (v : TDdgPayload) : ResponseWriter × Option String :=
  w.Write (Marshal v ++ [0x0A])

/-- Constant `http.StatusInternalServerError`. -/
def StatusInternalServerError : Nat := 500

/-- Function `http.Error`: resets the content headers, sends the status and
prints the message followed by a newline (`fmt.Fprintln`), ignoring the
result of that write. -/
def httpError (w : ResponseWriter) (error : String) (code : Nat) : ResponseWriter :=
  let h := Header.Del w.header "Content-Length"
  let h := Header.Set h "Content-Type" "text/plain; charset=utf-8"
  let h := Header.Set h "X-Content-Type-Options" "nosniff"
  let w := { w with header := h }
  let w := w.WriteHeader code
  (w.Write (goStr error ++ [0x0A])).1

/-! ## Tracing: spans and the request context -/

/-- A trace span as far as the gateway touches it: its name and attributes. -/
structure Span where
  name : String
  attributes : List (String × String)
deriving DecidableEq, Repr

/-- A call made on the span taken from a request context.  The target is the
span's identity, or `none` for the no-op span that `trace.SpanFromContext`
returns when the context carries no span. -/
inductive SpanCall where
  | SetName (target : Option Nat) (name : String)
  | SetAttributes (target : Option Nat) (key value : String)
deriving DecidableEq, Repr

/-- Type `*http.Request` as far as it is visible here: method, URL path, raw
query, body, headers, and the identity of the span its context carries. -/
structure Request where
  method : String
  path : String
  rawQuery : String
  body : Bytes
  header : Header
  span : Option Nat
deriving DecidableEq, Repr

/-- Everything a handler acts on while serving one request: the response
writer, the spans alive in the process, and the calls made on spans so far, in
order. -/
structure State where
  w : ResponseWriter
  spans : Nat → Span
  calls : List SpanCall

/-- How a handler call ends: it returns (`none`) or panics with a value. -/
abbrev Outcome := Option String

/-- Type `http.Handler`: serving a request transforms the state and returns
or panics. -/
abbrev Handler := Request → State → State × Outcome

/-- Method `Span.SetName` on `trace.SpanFromContext(ctx)`. -/
def State.SetName (st : State) (target : Option Nat) (name : String) : State :=
  match target with
  | none => { st with calls := st.calls ++ [SpanCall.SetName none name] }
  | some i =>
    { st with
      spans := Function.update st.spans i { st.spans i with name := name }
      calls := st.calls ++ [SpanCall.SetName (some i) name] }

/-- Method `Span.SetAttributes` on `trace.SpanFromContext(ctx)` with one
attribute; a later value for a key replaces the earlier one. -/
def State.SetAttributes (st : State) (target : Option Nat) (key value : String) : State :=
  match target with
  | none => { st with calls := st.calls ++ [SpanCall.SetAttributes none key value] }
  | some i =>
    { st with
      spans := Function.update st.spans i
        { st.spans i with
          attributes := (st.spans i).attributes.filter (fun a => a.1 != key) ++ [(key, value)] }
      calls := st.calls ++ [SpanCall.SetAttributes (some i) key value] }

/-- Function `otelhttp.WithRouteTag`: annotates the span of the request with
the `http.route` attribute, then serves with `h`. -/
def WithRouteTag (route : String) (h : Handler) : Handler :=
  fun r st => h r (st.SetAttributes r.span "http.route" route)

/-! ## The gateway -/

/-- Modelled from the spec: one call path as the dependency-query collaborator
returns it, an ordered sequence of (service, operation) nodes and an ordered
sequence of (key, value) attributes.  The package `querysvc` is not part of
the sources at hand. -/
structure CallPath where
  nodes : List (Bytes × Bytes)
  attributes : List (Bytes × Bytes)
deriving DecidableEq, Repr

/-- Modelled from the spec: type `querysvc.QueryService`, the external
dependency-query collaborator, reduced to the result its query returns (an
ordered sequence of call paths, or an error). -/
structure QueryService where
  FindDeepDependencies : Except String (List CallPath)

/-- Modelled from the spec: the mapping of a collaborator result into the
payload shape, one `TDdgPayloadPath` per call path, nodes and attributes in
the order returned. -/
def toPayload (paths : List CallPath) : TDdgPayload :=
  { Dependencies := some (paths.map (fun p =>
      { Path := some (p.nodes.map (fun n => { Service := n.1, Operation := n.2 }))
        Attributes := some (p.attributes.map (fun a => { Key := a.1, Value := a.2 })) })) }

/-- Go struct `HTTPGateway`; both fields are pointers and may be nil.  The
logger has no behaviour of interest. -/
structure HTTPGateway where
  QueryService : Option QueryService
  Logger : Option Unit

/-- Constant `routeGetDeepDependencies`. -/
def routeGetDeepDependencies : String := "/api/deep-dependencies/"

/-- Function `spanNameHandler`. -/
def spanNameHandler (spanName : String) (handler : Handler) : Handler :=
  fun r st => handler r (st.SetName r.span spanName)

/-- The local `dependencies` of `getDeepDependencies`: the payload it
serialises. -/
def HTTPGateway.dependencies (_h : HTTPGateway) (_r : Request) : TDdgPayload := fixture

/-- Method `(*HTTPGateway).getDeepDependencies`: its effect on the response
writer `w`. -/
def HTTPGateway.getDeepDependencies (h : HTTPGateway) (w : ResponseWriter) (r : Request) :
    ResponseWriter :=
  let dependencies := h.dependencies r
  let w := { w with header := Header.Set w.header "Content-Type" "application/json" }
  match Encode w dependencies with
  | (w, some _) => httpError w "Failed to encode response" StatusInternalServerError
  | (w, none) => w

/-- The method value `h.getDeepDependencies` as a handler: it acts on the
response writer only and returns normally. -/
def HTTPGateway.getDeepDependenciesHandler (h : HTTPGateway) : Handler :=
  fun r st => ({ st with w := h.getDeepDependencies st.w r }, none)

/-- Type `*mux.Route` as far as the gateway configures it: the path template,
the accepted methods (empty: any) and the handler. -/
structure Route where
  pattern : String
  methods : List String
  handler : Handler

/-- Type `*mux.Router`: the registered routes in order of registration. -/
structure Router where
  routes : List Route

/-- Method `(*mux.Route).Methods`. -/
def Route.Methods (rt : Route) (methods : List String) : Route :=
  { rt with methods := methods }

/-- Method `(*HTTPGateway).addRoute`, returning the route that
`router.HandleFunc` creates (its registration on the router is done by
`RegisterRoutes` below, once the caller has configured the route).  The
variadic arguments, which the source ignores, are left out. -/
def HTTPGateway.addRoute (_h : HTTPGateway) (f : Handler) (route : String) : Route :=
  let handler : Handler := f
  let handler := WithRouteTag route handler
  let handler := spanNameHandler route handler
  { pattern := route, methods := [], handler := handler }

/-- Method `(*HTTPGateway).RegisterRoutes`. -/
def HTTPGateway.RegisterRoutes (h : HTTPGateway) (router : Router) : Router :=
  { routes := router.routes ++
      [(h.addRoute h.getDeepDependenciesHandler routeGetDeepDependencies).Methods ["GET"]] }

/-- The value of `err` in `getDeepDependencies`: the error that `Encode`
returns on the writer whose content type has just been set. -/
def HTTPGateway.encodeError (h : HTTPGateway) (w : ResponseWriter) (r : Request) : Option String :=
  (Encode { w with header := Header.Set w.header "Content-Type" "application/json" }
    (h.dependencies r)).2

/-- Go's `len` of a slice. -/
def sliceLen {α : Type} (xs : Option (List α)) : Nat := (xs.getD []).length

/-- The composition the handler chain would be if the route-tag layer were
the outer one: route tag around span name around `f`. -/
def routeTagOutermost (f : Handler) (route : String) : Handler :=
  WithRouteTag route (spanNameHandler route f)

/-- The one call path whose mapping the handler serves. -/
def fixturePath : CallPath :=
  { nodes := [(goStr "serviceA", goStr "opA"), (goStr "serviceB", goStr "opB")],
    attributes := [(goStr "exemplar_trace_id", goStr "abc123")] }

/-- All the coming writes of the response writer succeed. -/
def ResponseWriter.WritesSucceed (w : ResponseWriter) : Prop :=
  ∀ o ∈ w.script, o = WriteOutcome.ok

instance (w : ResponseWriter) : Decidable w.WritesSucceed := by
  unfold ResponseWriter.WritesSucceed; infer_instance

/-- A handler that returns at once, leaving the state as it is. -/
def idleHandler : Handler := fun _ st => (st, none)

/-- A state with a fresh response writer, unnamed spans and no span calls. -/
def State.initial : State :=
  { w := ResponseWriter.fresh [] [], spans := fun _ => { name := "", attributes := [] }, calls := [] }

/-- A plain `GET` request for the deep-dependencies route whose context
carries span 0. -/
def sampleRequest : Request :=
  { method := "GET", path := "/api/deep-dependencies/", rawQuery := "", body := [],
    header := [], span := some 0 }

/-- A request that differs from `sampleRequest` in method, path, query,
body, headers and span. -/
def otherRequest : Request :=
  { method := "POST", path := "/api/deep-dependencies/x", rawQuery := "service=frontend",
    body := [0x7B, 0x7D], header := [("Accept", ["text/html"])], span := none }

/-- The strings of an entry are valid UTF-8. -/
def TDdgPayloadEntry.ValidUTF8 (e : TDdgPayloadEntry) : Prop :=
  ValidString e.Operation = true ∧ ValidString e.Service = true

/-- The strings of an attribute are valid UTF-8. -/
def Attribute.ValidUTF8 (a : Attribute) : Prop :=
  ValidString a.Key = true ∧ ValidString a.Value = true

/-- Every string of a path is valid UTF-8. -/
def TDdgPayloadPath.ValidUTF8 (p : TDdgPayloadPath) : Prop :=
  (∀ e ∈ p.Path.getD [], e.ValidUTF8) ∧ (∀ a ∈ p.Attributes.getD [], a.ValidUTF8)

/-- Every string of a payload is valid UTF-8. -/
def TDdgPayload.ValidUTF8 (p : TDdgPayload) : Prop :=
  ∀ d ∈ p.Dependencies.getD [], d.ValidUTF8

instance (e : TDdgPayloadEntry) : Decidable e.ValidUTF8 := by
  unfold TDdgPayloadEntry.ValidUTF8; infer_instance

instance (a : Attribute) : Decidable a.ValidUTF8 := by
  unfold Attribute.ValidUTF8; infer_instance

instance (p : TDdgPayloadPath) : Decidable p.ValidUTF8 := by
  unfold TDdgPayloadPath.ValidUTF8; infer_instance

instance (p : TDdgPayload) : Decidable p.ValidUTF8 := by
  unfold TDdgPayload.ValidUTF8; infer_instance

/-- A payload one of whose strings is the single byte `0xFF`, which is not
valid UTF-8. -/
def invalidUTF8Payload : TDdgPayload :=
  { Dependencies := some [{ Path := some [{ Operation := goStr "op", Service := [0xFF] }],
                            Attributes := some [] }] }

/-- The payload `invalidUTF8Payload` with the invalid byte replaced by the
encoding of U+FFFD. -/
def replacedUTF8Payload : TDdgPayload :=
  { Dependencies := some [{ Path := some [{ Operation := goStr "op", Service := [0xEF, 0xBF, 0xBD] }],
                            Attributes := some [] }] }

/-- The payload `invalidUTF8Payload` with another invalid byte, `0xFE`. -/
def otherInvalidUTF8Payload : TDdgPayload :=
  { Dependencies := some [{ Path := some [{ Operation := goStr "op", Service := [0xFE] }],
                            Attributes := some [] }] }

/-! ## Lemmas on UTF-8 decoding and encoding -/

theorem first_cases (s0 : Nat) (hs0 : 0x80 ≤ s0) :
    (first s0 = 0xF1)
    ∨ (first s0 = 0x02 ∧ 0xC2 ≤ s0 ∧ s0 ≤ 0xDF)
    ∨ (first s0 = 0x13 ∧ s0 = 0xE0)
    ∨ (first s0 = 0x03 ∧ 0xE1 ≤ s0 ∧ s0 ≤ 0xEF ∧ s0 ≠ 0xED)
    ∨ (first s0 = 0x23 ∧ s0 = 0xED)
    ∨ (first s0 = 0x34 ∧ s0 = 0xF0)
    ∨ (first s0 = 0x04 ∧ 0xF1 ≤ s0 ∧ s0 ≤ 0xF3)
    ∨ (first s0 = 0x44 ∧ s0 = 0xF4) := by
  unfold first
  rw [if_neg (by omega : ¬ s0 < 0x80)]
  by_cases h2 : s0 < 0xC2
  · rw [if_pos h2]; exact Or.inl rfl
  rw [if_neg h2]
  by_cases h3 : s0 < 0xE0
  · rw [if_pos h3]; exact Or.inr (Or.inl ⟨rfl, by omega, by omega⟩)
  rw [if_neg h3]
  by_cases h4 : s0 = 0xE0
  · rw [if_pos h4]; exact Or.inr (Or.inr (Or.inl ⟨rfl, h4⟩))
  rw [if_neg h4]
  by_cases h5 : s0 < 0xED
  · rw [if_pos h5]; exact Or.inr (Or.inr (Or.inr (Or.inl ⟨rfl, by omega, by omega, by omega⟩)))
  rw [if_neg h5]
  by_cases h6 : s0 = 0xED
  · rw [if_pos h6]; exact Or.inr (Or.inr (Or.inr (Or.inr (Or.inl ⟨rfl, h6⟩))))
  rw [if_neg h6]
  by_cases h7 : s0 < 0xF0
  · rw [if_pos h7]; exact Or.inr (Or.inr (Or.inr (Or.inl ⟨rfl, by omega, by omega, by omega⟩)))
  rw [if_neg h7]
  by_cases h8 : s0 = 0xF0
  · rw [if_pos h8]; exact Or.inr (Or.inr (Or.inr (Or.inr (Or.inr (Or.inl ⟨rfl, h8⟩)))))
  rw [if_neg h8]
  by_cases h9 : s0 < 0xF4
  · rw [if_pos h9]
    exact Or.inr (Or.inr (Or.inr (Or.inr (Or.inr (Or.inr (Or.inl ⟨rfl, by omega, by omega⟩))))))
  rw [if_neg h9]
  by_cases h10 : s0 = 0xF4
  · rw [if_pos h10]
    exact Or.inr (Or.inr (Or.inr (Or.inr (Or.inr (Or.inr (Or.inr ⟨rfl, h10⟩))))))
  rw [if_neg h10]
  exact Or.inl rfl

theorem decodeRune_size2 (s0 K lo hi : Nat) (t : Bytes) (h : first s0 = K) (hK : K < 0xF0)
    (hsz : K % 8 = 2) (hacc : acceptRanges (K / 16) = (lo, hi))
    (hne : (decodeRune (s0 :: t)).2 ≠ 1) :
    ∃ s1 t1, t = s1 :: t1 ∧ lo ≤ s1 ∧ s1 ≤ hi
      ∧ decodeRune (s0 :: t) = ((s0 % 32) * 64 + s1 % 64, 2) := by
  have hK2 : ¬ K ≥ 240 := by omega
  match t with
  | [] => simp [decodeRune, h, hK2, hsz] at hne
  | s1 :: t1 =>
    simp only [decodeRune, h, hK2, hsz, hacc, if_false] at hne ⊢
    simp only [List.length_cons, List.getD_cons_succ, List.getD_cons_zero] at hne ⊢
    rw [if_neg (by omega)] at hne ⊢
    by_cases c1 : s1 < lo ∨ hi < s1
    · rw [if_pos c1] at hne; exact absurd rfl hne
    · rw [if_neg c1, if_pos (le_refl 2)]
      exact ⟨s1, t1, rfl, by omega, by omega, rfl⟩

theorem decodeRune_size3 (s0 K lo hi : Nat) (t : Bytes) (h : first s0 = K) (hK : K < 0xF0)
    (hsz : K % 8 = 3) (hacc : acceptRanges (K / 16) = (lo, hi))
    (hne : (decodeRune (s0 :: t)).2 ≠ 1) :
    ∃ s1 s2 t2, t = s1 :: s2 :: t2 ∧ lo ≤ s1 ∧ s1 ≤ hi ∧ 0x80 ≤ s2 ∧ s2 ≤ 0xBF
      ∧ decodeRune (s0 :: t) = ((s0 % 16) * 4096 + (s1 % 64) * 64 + s2 % 64, 3) := by
  have hK2 : ¬ K ≥ 240 := by omega
  match t with
  | [] => simp [decodeRune, h, hK2, hsz] at hne
  | [s1] => simp [decodeRune, h, hK2, hsz] at hne
  | s1 :: s2 :: t2 =>
    simp only [decodeRune, h, hK2, hsz, hacc, if_false] at hne ⊢
    simp only [List.length_cons, List.getD_cons_succ, List.getD_cons_zero] at hne ⊢
    rw [if_neg (by omega)] at hne ⊢
    by_cases c1 : s1 < lo ∨ hi < s1
    · rw [if_pos c1] at hne; exact absurd rfl hne
    rw [if_neg c1, if_neg (by omega)] at hne ⊢
    by_cases c2 : s2 < 128 ∨ 191 < s2
    · rw [if_pos c2] at hne; exact absurd rfl hne
    rw [if_neg c2, if_pos (le_refl 3)]
    exact ⟨s1, s2, t2, rfl, by omega, by omega, by omega, by omega, rfl⟩

theorem decodeRune_size4 (s0 K lo hi : Nat) (t : Bytes) (h : first s0 = K) (hK : K < 0xF0)
    (hsz : K % 8 = 4) (hacc : acceptRanges (K / 16) = (lo, hi))
    (hne : (decodeRune (s0 :: t)).2 ≠ 1) :
    ∃ s1 s2 s3 t3, t = s1 :: s2 :: s3 :: t3 ∧ lo ≤ s1 ∧ s1 ≤ hi ∧ 0x80 ≤ s2 ∧ s2 ≤ 0xBF
      ∧ 0x80 ≤ s3 ∧ s3 ≤ 0xBF
      ∧ decodeRune (s0 :: t)
          = ((s0 % 8) * 262144 + (s1 % 64) * 4096 + (s2 % 64) * 64 + s3 % 64, 4) := by
  have hK2 : ¬ K ≥ 240 := by omega
  match t with
  | [] => simp [decodeRune, h, hK2, hsz] at hne
  | [s1] => simp [decodeRune, h, hK2, hsz] at hne
  | [s1, s2] => simp [decodeRune, h, hK2, hsz] at hne
  | s1 :: s2 :: s3 :: t3 =>
    simp only [decodeRune, h, hK2, hsz, hacc, if_false] at hne ⊢
    simp only [List.length_cons, List.getD_cons_succ, List.getD_cons_zero] at hne ⊢
    rw [if_neg (by omega)] at hne ⊢
    by_cases c1 : s1 < lo ∨ hi < s1
    · rw [if_pos c1] at hne; exact absurd rfl hne
    rw [if_neg c1, if_neg (by omega)] at hne ⊢
    by_cases c2 : s2 < 128 ∨ 191 < s2
    · rw [if_pos c2] at hne; exact absurd rfl hne
    rw [if_neg c2, if_neg (by omega)] at hne ⊢
    by_cases c3 : s3 < 128 ∨ 191 < s3
    · rw [if_pos c3] at hne; exact absurd rfl hne
    rw [if_neg c3]
    exact ⟨s1, s2, s3, t3, rfl, by omega, by omega, by omega, by omega, by omega, by omega, rfl⟩

theorem decodeRune_eq2 (s0 K lo hi s1 : Nat) (t : Bytes) (h : first s0 = K) (hK : K < 0xF0)
    (hsz : K % 8 = 2) (hacc : acceptRanges (K / 16) = (lo, hi)) (h1 : lo ≤ s1 ∧ s1 ≤ hi) :
    decodeRune (s0 :: s1 :: t) = ((s0 % 32) * 64 + s1 % 64, 2) := by
  have hK2 : ¬ K ≥ 240 := by omega
  simp only [decodeRune, h, hK2, hsz, hacc, if_false]
  simp only [List.length_cons, List.getD_cons_succ, List.getD_cons_zero]
  rw [if_neg (by omega), if_neg (by omega), if_pos (le_refl 2)]

theorem decodeRune_eq3 (s0 K lo hi s1 s2 : Nat) (t : Bytes) (h : first s0 = K) (hK : K < 0xF0)
    (hsz : K % 8 = 3) (hacc : acceptRanges (K / 16) = (lo, hi)) (h1 : lo ≤ s1 ∧ s1 ≤ hi)
    (h2 : 0x80 ≤ s2 ∧ s2 ≤ 0xBF) :
    decodeRune (s0 :: s1 :: s2 :: t) = ((s0 % 16) * 4096 + (s1 % 64) * 64 + s2 % 64, 3) := by
  have hK2 : ¬ K ≥ 240 := by omega
  simp only [decodeRune, h, hK2, hsz, hacc, if_false]
  simp only [List.length_cons, List.getD_cons_succ, List.getD_cons_zero]
  rw [if_neg (by omega), if_neg (by omega), if_neg (by omega), if_neg (by omega),
    if_pos (le_refl 3)]

theorem decodeRune_eq4 (s0 K lo hi s1 s2 s3 : Nat) (t : Bytes) (h : first s0 = K)
    (hK : K < 0xF0) (hsz : K % 8 = 4) (hacc : acceptRanges (K / 16) = (lo, hi))
    (h1 : lo ≤ s1 ∧ s1 ≤ hi) (h2 : 0x80 ≤ s2 ∧ s2 ≤ 0xBF) (h3 : 0x80 ≤ s3 ∧ s3 ≤ 0xBF) :
    decodeRune (s0 :: s1 :: s2 :: s3 :: t)
      = ((s0 % 8) * 262144 + (s1 % 64) * 4096 + (s2 % 64) * 64 + s3 % 64, 4) := by
  have hK2 : ¬ K ≥ 240 := by omega
  simp only [decodeRune, h, hK2, hsz, hacc, if_false]
  simp only [List.length_cons, List.getD_cons_succ, List.getD_cons_zero]
  rw [if_neg (by omega), if_neg (by omega), if_neg (by omega), if_neg (by omega),
    if_neg (by omega), if_neg (by omega)]

theorem encodeRune_two (s0 s1 : Nat) (h0 : 0xC2 ≤ s0 ∧ s0 ≤ 0xDF) (h1 : 0x80 ≤ s1 ∧ s1 ≤ 0xBF) :
    encodeRune ((s0 % 32) * 64 + s1 % 64) = [s0, s1] := by
  unfold encodeRune
  rw [if_neg (by omega), if_pos (by omega)]
  congr 1
  · omega
  · congr 1; omega

theorem encodeRune_three (s0 s1 s2 : Nat) (h0 : 0xE0 ≤ s0 ∧ s0 ≤ 0xEF)
    (h1 : 0x80 ≤ s1 ∧ s1 ≤ 0xBF) (hE0 : s0 = 0xE0 → 0xA0 ≤ s1) (hED : s0 = 0xED → s1 ≤ 0x9F)
    (h2 : 0x80 ≤ s2 ∧ s2 ≤ 0xBF) :
    encodeRune ((s0 % 16) * 4096 + (s1 % 64) * 64 + s2 % 64) = [s0, s1, s2] := by
  unfold encodeRune
  rw [if_neg (by omega), if_neg (by omega), if_neg (by omega), if_pos (by omega)]
  congr 1
  · omega
  · congr 1
    · omega
    · congr 1; omega

theorem encodeRune_four (s0 s1 s2 s3 : Nat) (h0 : 0xF0 ≤ s0 ∧ s0 ≤ 0xF4)
    (h1 : 0x80 ≤ s1 ∧ s1 ≤ 0xBF) (hF0 : s0 = 0xF0 → 0x90 ≤ s1) (hF4 : s0 = 0xF4 → s1 ≤ 0x8F)
    (h2 : 0x80 ≤ s2 ∧ s2 ≤ 0xBF) (h3 : 0x80 ≤ s3 ∧ s3 ≤ 0xBF) :
    encodeRune ((s0 % 8) * 262144 + (s1 % 64) * 4096 + (s2 % 64) * 64 + s3 % 64)
      = [s0, s1, s2, s3] := by
  unfold encodeRune
  rw [if_neg (by omega), if_neg (by omega), if_neg (by omega), if_neg (by omega)]
  congr 1
  · omega
  · congr 1
    · omega
    · congr 1
      · omega
      · congr 1; omega

theorem decodeRune_valid_step (s0 : Nat) (t : Bytes) (hs0 : 0x80 ≤ s0)
    (hne : (decodeRune (s0 :: t)).2 ≠ 1) :
    ∃ pre post, s0 :: t = pre ++ post ∧ pre.length = (decodeRune (s0 :: t)).2
      ∧ encodeRune (decodeRune (s0 :: t)).1 = pre
      ∧ (∀ X, decodeRune (pre ++ X) = decodeRune (s0 :: t))
      ∧ (∃ p, pre = s0 :: p) := by
  rcases first_cases s0 hs0 with h | ⟨h, hr⟩ | ⟨h, hr⟩ | ⟨h, hr⟩ | ⟨h, hr⟩ | ⟨h, hr⟩ | ⟨h, hr⟩
    | ⟨h, hr⟩
  · simp [decodeRune, h] at hne
  · obtain ⟨s1, t1, rfl, l1, l2, e⟩ := decodeRune_size2 s0 0x02 0x80 0xBF t h (by omega) rfl rfl hne
    refine ⟨[s0, s1], t1, rfl, by rw [e]; rfl, ?_, ?_, ⟨_, rfl⟩⟩
    · rw [e]
      exact encodeRune_two s0 s1 (by omega) (by omega)
    · intro X
      rw [e]
      exact decodeRune_eq2 s0 0x02 0x80 0xBF s1 X h (by omega) rfl rfl ⟨l1, l2⟩
  · obtain ⟨s1, s2, t2, rfl, l1, l2, l3, l4, e⟩ :=
      decodeRune_size3 s0 0x13 0xA0 0xBF t h (by omega) rfl rfl hne
    refine ⟨[s0, s1, s2], t2, rfl, by rw [e]; rfl, ?_, ?_, ⟨_, rfl⟩⟩
    · rw [e]
      exact encodeRune_three s0 s1 s2 (by omega) (by omega) (by omega) (by omega) (by omega)
    · intro X
      rw [e]
      exact decodeRune_eq3 s0 0x13 0xA0 0xBF s1 s2 X h (by omega) rfl rfl ⟨l1, l2⟩ ⟨l3, l4⟩
  · obtain ⟨s1, s2, t2, rfl, l1, l2, l3, l4, e⟩ :=
      decodeRune_size3 s0 0x03 0x80 0xBF t h (by omega) rfl rfl hne
    refine ⟨[s0, s1, s2], t2, rfl, by rw [e]; rfl, ?_, ?_, ⟨_, rfl⟩⟩
    · rw [e]
      exact encodeRune_three s0 s1 s2 (by omega) (by omega) (by omega) (by omega) (by omega)
    · intro X
      rw [e]
      exact decodeRune_eq3 s0 0x03 0x80 0xBF s1 s2 X h (by omega) rfl rfl ⟨l1, l2⟩ ⟨l3, l4⟩
  · obtain ⟨s1, s2, t2, rfl, l1, l2, l3, l4, e⟩ :=
      decodeRune_size3 s0 0x23 0x80 0x9F t h (by omega) rfl rfl hne
    refine ⟨[s0, s1, s2], t2, rfl, by rw [e]; rfl, ?_, ?_, ⟨_, rfl⟩⟩
    · rw [e]
      exact encodeRune_three s0 s1 s2 (by omega) (by omega) (by omega) (by omega) (by omega)
    · intro X
      rw [e]
      exact decodeRune_eq3 s0 0x23 0x80 0x9F s1 s2 X h (by omega) rfl rfl ⟨l1, l2⟩ ⟨l3, l4⟩
  · obtain ⟨s1, s2, s3, t3, rfl, l1, l2, l3, l4, l5, l6, e⟩ :=
      decodeRune_size4 s0 0x34 0x90 0xBF t h (by omega) rfl rfl hne
    refine ⟨[s0, s1, s2, s3], t3, rfl, by rw [e]; rfl, ?_, ?_, ⟨_, rfl⟩⟩
    · rw [e]
      exact encodeRune_four s0 s1 s2 s3 (by omega) (by omega) (by omega) (by omega) (by omega)
        (by omega)
    · intro X
      rw [e]
      exact decodeRune_eq4 s0 0x34 0x90 0xBF s1 s2 s3 X h (by omega) rfl rfl ⟨l1, l2⟩ ⟨l3, l4⟩
        ⟨l5, l6⟩
  · obtain ⟨s1, s2, s3, t3, rfl, l1, l2, l3, l4, l5, l6, e⟩ :=
      decodeRune_size4 s0 0x04 0x80 0xBF t h (by omega) rfl rfl hne
    refine ⟨[s0, s1, s2, s3], t3, rfl, by rw [e]; rfl, ?_, ?_, ⟨_, rfl⟩⟩
    · rw [e]
      exact encodeRune_four s0 s1 s2 s3 (by omega) (by omega) (by omega) (by omega) (by omega)
        (by omega)
    · intro X
      rw [e]
      exact decodeRune_eq4 s0 0x04 0x80 0xBF s1 s2 s3 X h (by omega) rfl rfl ⟨l1, l2⟩ ⟨l3, l4⟩
        ⟨l5, l6⟩
  · obtain ⟨s1, s2, s3, t3, rfl, l1, l2, l3, l4, l5, l6, e⟩ :=
      decodeRune_size4 s0 0x44 0x80 0x8F t h (by omega) rfl rfl hne
    refine ⟨[s0, s1, s2, s3], t3, rfl, by rw [e]; rfl, ?_, ?_, ⟨_, rfl⟩⟩
    · rw [e]
      exact encodeRune_four s0 s1 s2 s3 (by omega) (by omega) (by omega) (by omega) (by omega)
        (by omega)
    · intro X
      rw [e]
      exact decodeRune_eq4 s0 0x44 0x80 0x8F s1 s2 s3 X h (by omega) rfl rfl ⟨l1, l2⟩ ⟨l3, l4⟩
        ⟨l5, l6⟩

theorem first_size_le (a : Nat) : first a % 8 ≤ 4 := by
  by_cases h : a < 0x80
  · unfold first; rw [if_pos h]; omega
  · rcases first_cases a (by omega) with h | ⟨h, _⟩ | ⟨h, _⟩ | ⟨h, _⟩ | ⟨h, _⟩ | ⟨h, _⟩ | ⟨h, _⟩
      | ⟨h, _⟩ <;> omega

theorem decodeRune_take4 (s : Bytes) : decodeRune (s.take 4) = decodeRune s := by
  match s with
  | [] => rfl
  | [a] => rfl
  | [a, b] => rfl
  | [a, b, c] => rfl
  | a :: b :: c :: d :: t =>
    simp only [List.take_succ_cons, List.take_zero, decodeRune, List.length_cons, List.getD_cons_succ, List.getD_cons_zero, List.length_nil]
    have := first_size_le a
    have h1 : ¬ (0 + 1 + 1 + 1 + 1 < first a % 8) := by omega
    have h2 : ¬ (t.length + 1 + 1 + 1 + 1 < first a % 8) := by omega
    simp only [h1, h2]

/-! ## Lemmas on JSON strings: unquoting what `appendString` wrote -/

theorem hexVal_hex (n : Nat) (hn : n < 16) : hexVal (hex n) = some n := by
  unfold hex hexVal
  by_cases h : n < 10
  · rw [if_pos h, if_pos (by omega)]; congr 1; omega
  · rw [if_neg h, if_neg (by omega), if_pos (by omega)]; congr 1; omega

theorem getu4_escape (a b c d : Nat) (ha : a < 16) (hb : b < 16) (hc : c < 16) (hd : d < 16)
    (rest : Bytes) :
    getu4 (0x5C :: 0x75 :: hex a :: hex b :: hex c :: hex d :: rest)
      = some (((a * 16 + b) * 16 + c) * 16 + d) := by
  simp [getu4, hexVal_hex, ha, hb, hc, hd]

theorem unquote_safe (b : Nat) (hs : htmlSafeSet b = true) (fuel : Nat) (rest acc : Bytes) :
    unquoteLoop (fuel + 1) (b :: rest) acc = unquoteLoop fuel rest (acc ++ [b]) := by
  simp only [htmlSafeSet, decide_eq_true_eq] at hs
  simp only [unquoteLoop]
  rw [if_neg (by omega), if_neg (by omega), if_neg (by omega), if_pos (by omega)]

theorem unquote_u00 (b : Nat) (hb : b < 0x80) (fuel : Nat) (rest acc : Bytes) :
    unquoteLoop (fuel + 1) (0x5C :: 0x75 :: 0x30 :: 0x30 :: hex (b / 16) :: hex (b % 16) :: rest) acc
      = unquoteLoop fuel rest (acc ++ [b]) := by
  have hg := getu4_escape 0 0 (b / 16) (b % 16) (by omega) (by omega) (by omega) (by omega) rest
  have h0 : hex 0 = 0x30 := rfl
  rw [h0] at hg
  have hv : ((0 * 16 + 0) * 16 + b / 16) * 16 + b % 16 = b := by omega
  rw [hv] at hg
  have hns : ¬ (55296 ≤ b ∧ b < 57344) := by omega
  simp [unquoteLoop, hg, hns, encodeRune, hb]

theorem unquote_escapeByte (b : Nat) (hb : b < 0x80) (fuel : Nat) (rest acc : Bytes) :
    unquoteLoop (fuel + 1) (escapeByte b ++ rest) acc = unquoteLoop fuel rest (acc ++ [b]) := by
  unfold escapeByte
  by_cases c1 : b = 0x5C ∨ b = 0x22
  · rw [if_pos c1]
    rcases c1 with rfl | rfl <;> simp [unquoteLoop]
  rw [if_neg c1]
  by_cases c2 : b = 0x08
  · subst c2; simp [unquoteLoop]
  rw [if_neg c2]
  by_cases c3 : b = 0x0C
  · subst c3; simp [unquoteLoop]
  rw [if_neg c3]
  by_cases c4 : b = 0x0A
  · subst c4; simp [unquoteLoop]
  rw [if_neg c4]
  by_cases c5 : b = 0x0D
  · subst c5; simp [unquoteLoop]
  rw [if_neg c5]
  by_cases c6 : b = 0x09
  · subst c6; simp [unquoteLoop]
  rw [if_neg c6]
  exact unquote_u00 b hb fuel rest acc

theorem unquote_u202x (c : Nat) (hc : c = 0x2028 ∨ c = 0x2029) (fuel : Nat) (rest acc : Bytes) :
    unquoteLoop (fuel + 1) ([0x5C, 0x75, 0x32, 0x30, 0x32, hex (c % 16)] ++ rest) acc
      = unquoteLoop fuel rest (acc ++ encodeRune c) := by
  rcases hc with rfl | rfl
  · have hg : getu4 (0x5C :: 0x75 :: 0x32 :: 0x30 :: 0x32 :: 0x38 :: rest) = some 0x2028 := by
      simp [getu4, hexVal]
    have hh : hex (0x2028 % 16) = 0x38 := rfl
    simp [unquoteLoop, hg, hh]
  · have hg : getu4 (0x5C :: 0x75 :: 0x32 :: 0x30 :: 0x32 :: 0x39 :: rest) = some 0x2029 := by
      simp [getu4, hexVal]
    have hh : hex (0x2029 % 16) = 0x39 := rfl
    simp [unquoteLoop, hg, hh]

theorem unquote_literal (s0 : Nat) (p X : Bytes) (hs0 : 0x80 ≤ s0) (d : Nat × Nat)
    (hd : decodeRune (s0 :: p ++ X) = d) (hlen : (s0 :: p).length = d.2)
    (henc : encodeRune d.1 = s0 :: p) (fuel : Nat) (acc : Bytes) :
    unquoteLoop (fuel + 1) (s0 :: p ++ X) acc = unquoteLoop fuel X (acc ++ (s0 :: p)) := by
  simp only [List.cons_append] at hd ⊢
  simp only [unquoteLoop]
  rw [if_neg (by omega), if_neg (by omega), if_neg (by omega), if_neg (by omega)]
  simp only [hd, henc]
  rw [← hlen]
  have : List.drop (s0 :: p).length (s0 :: (p ++ X)) = X := by
    rw [← List.cons_append, List.drop_left]
  rw [this]

theorem escapeByte_length_pos (b : Nat) : 0 < (escapeByte b).length := by
  unfold escapeByte
  split_ifs <;> simp

theorem appendStringLoop_ascii (fuel b : Nat) (t : Bytes) (hb : b < 0x80) :
    appendStringLoop (fuel + 1) (b :: t)
      = (if htmlSafeSet b then [b] else escapeByte b) ++ appendStringLoop fuel t := by
  simp only [appendStringLoop, if_pos hb]

theorem appendStringLoop_multi (fuel b : Nat) (t : Bytes) (hb : ¬ b < 0x80) :
    appendStringLoop (fuel + 1) (b :: t)
      = if (decodeRune (b :: t)).1 = RuneError ∧ (decodeRune (b :: t)).2 = 1 then
          [0x5C, 0x75, 0x66, 0x66, 0x66, 0x64] ++ appendStringLoop fuel t
        else if (decodeRune (b :: t)).1 = 0x2028 ∨ (decodeRune (b :: t)).1 = 0x2029 then
          [0x5C, 0x75, 0x32, 0x30, 0x32, hex ((decodeRune (b :: t)).1 % 16)]
            ++ appendStringLoop fuel ((b :: t).drop (decodeRune (b :: t)).2)
        else
          (b :: t).take (decodeRune (b :: t)).2
            ++ appendStringLoop fuel ((b :: t).drop (decodeRune (b :: t)).2) := by
  rw [← decodeRune_take4 (b :: t)]
  simp only [appendStringLoop, if_neg hb]

theorem validLoop_ascii (fuel b : Nat) (t : Bytes) (hb : b < 0x80) :
    validLoop (fuel + 1) (b :: t) = validLoop fuel t := by
  simp only [validLoop, if_pos hb]

theorem validLoop_multi (fuel b : Nat) (t : Bytes) (hb : ¬ b < 0x80) :
    validLoop (fuel + 1) (b :: t)
      = if (decodeRune (b :: t)).2 = 1 then false
        else validLoop fuel ((b :: t).drop (decodeRune (b :: t)).2) := by
  simp only [validLoop, if_neg hb]

theorem unquote_appendStringLoop : ∀ (fuel : Nat) (s rest acc : Bytes) (fuel2 : Nat),
    validLoop fuel s = true → s.length ≤ fuel →
    (appendStringLoop fuel s).length < fuel2 →
    unquoteLoop fuel2 (appendStringLoop fuel s ++ 0x22 :: rest) acc = some (acc ++ s, rest)
  | 0, s, rest, acc, fuel2, _, hl, hf => by
    have hs : s = [] := List.length_eq_zero.mp (by omega)
    subst hs
    obtain ⟨f, rfl⟩ : ∃ f, fuel2 = f + 1 := ⟨fuel2 - 1, by omega⟩
    simp [appendStringLoop, unquoteLoop]
  | fuel + 1, [], rest, acc, fuel2, _, _, hf => by
    obtain ⟨f, rfl⟩ : ∃ f, fuel2 = f + 1 := ⟨fuel2 - 1, by omega⟩
    simp [appendStringLoop, unquoteLoop]
  | fuel + 1, b :: t, rest, acc, fuel2, hv, hl, hf => by
    obtain ⟨f, rfl⟩ : ∃ f, fuel2 = f + 1 := ⟨fuel2 - 1, by omega⟩
    have hl2 : t.length ≤ fuel := by simpa using hl
    by_cases hb : b < 0x80
    · rw [validLoop_ascii fuel b t hb] at hv
      rw [appendStringLoop_ascii fuel b t hb] at hf ⊢
      by_cases hs : htmlSafeSet b = true
      · rw [if_pos hs] at hf ⊢
        have ih := unquote_appendStringLoop fuel t rest (acc ++ [b]) f hv hl2
          (by simp at hf; omega)
        rw [List.append_assoc, List.singleton_append, unquote_safe b hs, ih]
        simp
      · rw [if_neg hs] at hf ⊢
        have hp := escapeByte_length_pos b
        have ih := unquote_appendStringLoop fuel t rest (acc ++ [b]) f hv hl2
          (by simp at hf; omega)
        rw [List.append_assoc, unquote_escapeByte b hb, ih]
        simp
    · rw [validLoop_multi fuel b t hb] at hv
      have hne : (decodeRune (b :: t)).2 ≠ 1 := by
        intro h1; rw [if_pos h1] at hv; exact absurd hv (by simp)
      rw [if_neg hne] at hv
      obtain ⟨pre, post, hsplit, hlen, henc, hdec, p, hp⟩ :=
        decodeRune_valid_step b t (by omega) hne
      have htake : (b :: t).take (decodeRune (b :: t)).2 = pre := by
        rw [← hlen, hsplit, List.take_left]
      have hdrop : (b :: t).drop (decodeRune (b :: t)).2 = post := by
        rw [← hlen, hsplit, List.drop_left]
      have hpl : post.length ≤ fuel := by
        have := congrArg List.length hsplit
        simp [hp] at this
        omega
      rw [appendStringLoop_multi fuel b t hb, if_neg (fun h => hne h.2)] at hf ⊢
      rw [hdrop] at hv hf ⊢
      rw [htake] at hf ⊢
      by_cases hu : (decodeRune (b :: t)).1 = 0x2028 ∨ (decodeRune (b :: t)).1 = 0x2029
      · rw [if_pos hu] at hf ⊢
        have ih := unquote_appendStringLoop fuel post rest (acc ++ pre) f hv hpl
          (by simp at hf; omega)
        rw [List.append_assoc, unquote_u202x _ hu, henc, ih, hsplit]
        simp
      · rw [if_neg hu] at hf ⊢
        have ih := unquote_appendStringLoop fuel post rest (acc ++ pre) f hv hpl
          (by simp [hp] at hf; omega)
        rw [List.append_assoc]
        subst hp
        rw [unquote_literal b p _ (by omega) _ (hdec _) hlen henc, ih, hsplit]
        simp

/-! ## Lemmas on the JSON round trip of the payload types -/

theorem expectLit_append (lit rest : Bytes) : expectLit lit (lit ++ rest) = some rest := by
  induction lit with
  | nil => cases rest <;> rfl
  | cons c cs ih => simp [expectLit, ih]

theorem decodeString_appendString (s rest : Bytes) (hv : ValidString s = true) :
    decodeString (appendString s ++ rest) = some (s, rest) := by
  unfold appendString decodeString
  simp only [List.cons_append, List.append_assoc, List.singleton_append, if_true]
  have := unquote_appendStringLoop s.length s rest [] _ hv (le_refl _)
    (Nat.lt_succ_of_le (by simp : (appendStringLoop s.length s).length
      ≤ (appendStringLoop s.length s ++ 0x22 :: rest).length))
  simpa using this

theorem decodeEntry_encodeEntry (e : TDdgPayloadEntry) (rest : Bytes) (hv : e.ValidUTF8) :
    decodeEntry (encodeEntry e ++ rest) = some (e, rest) := by
  obtain ⟨h1, h2⟩ := hv
  simp [decodeEntry, encodeEntry, expectLit_append, decodeString_appendString, h1, h2]

theorem decodeAttribute_encodeAttribute (a : Attribute) (rest : Bytes) (hv : a.ValidUTF8) :
    decodeAttribute (encodeAttribute a ++ rest) = some (a, rest) := by
  obtain ⟨h1, h2⟩ := hv
  simp [decodeAttribute, encodeAttribute, expectLit_append, decodeString_appendString, h1, h2]

theorem encodeElems_length {α : Type} (enc : α → Bytes) (x : α) (xs : List α) :
    xs.length ≤ (encodeElems enc (x :: xs)).length := by
  induction xs generalizing x with
  | nil => simp
  | cons y ys ih =>
    have := ih y
    simp only [encodeElems, List.length_append, List.length_cons] at this ⊢
    omega

theorem decodeElems_encodeElems {α : Type} (enc : α → Bytes) (dec : Bytes → Option (α × Bytes))
    (xs : List α) : ∀ (x : α) (fuel : Nat) (rest : Bytes) (acc : List α),
    (∀ y ∈ x :: xs, ∀ r, dec (enc y ++ r) = some (y, r)) → xs.length < fuel →
    decodeElems dec fuel (encodeElems enc (x :: xs) ++ 0x5D :: rest) acc
      = some (acc ++ x :: xs, rest) := by
  induction xs with
  | nil =>
    intro x fuel rest acc hdec hf
    obtain ⟨f, rfl⟩ : ∃ f, fuel = f + 1 := ⟨fuel - 1, by omega⟩
    simp [decodeElems, encodeElems, hdec x (by simp)]
  | cons y ys ih =>
    intro x fuel rest acc hdec hf
    obtain ⟨f, rfl⟩ : ∃ f, fuel = f + 1 := ⟨fuel - 1, by omega⟩
    have ih2 := ih y f rest (acc ++ [x]) (fun z hz => hdec z (List.mem_cons_of_mem _ hz))
      (by simpa using hf)
    simp only [encodeElems, List.append_assoc, List.cons_append, decodeElems,
      hdec x (by simp), if_true, ih2]
    simp

theorem expectLit_null_bracket (t : Bytes) : expectLit (goStr "null") (0x5B :: t) = none := by
  have h : goStr "null" = [0x6E, 0x75, 0x6C, 0x6C] := by decide
  rw [h]
  simp [expectLit]

theorem decodeSlice_encodeSlice {α : Type} (enc : α → Bytes) (dec : Bytes → Option (α × Bytes))
    (hhead : ∀ x, ∃ t, enc x = 0x7B :: t) (xs : Option (List α)) (rest : Bytes)
    (hdec : ∀ y ∈ xs.getD [], ∀ r, dec (enc y ++ r) = some (y, r)) :
    decodeSlice dec (encodeSlice enc xs ++ rest) = some (xs, rest) := by
  cases xs with
  | none => simp [decodeSlice, encodeSlice, expectLit_append]
  | some l =>
    cases l with
    | nil => simp [decodeSlice, encodeSlice, encodeElems, expectLit_null_bracket]
    | cons x xs =>
      have hL : ∃ t, encodeElems enc (x :: xs) ++ 0x5D :: rest = 0x7B :: t := by
        obtain ⟨t, ht⟩ := hhead x
        cases xs with
        | nil => exact ⟨t ++ 0x5D :: rest, by simp [encodeElems, ht]⟩
        | cons y ys =>
          exact ⟨t ++ 0x2C :: (encodeElems enc (y :: ys) ++ 0x5D :: rest), by
            simp [encodeElems, ht]⟩
      obtain ⟨t, ht⟩ := hL
      have hfuel : xs.length < (encodeElems enc (x :: xs) ++ 0x5D :: rest).length + 1 := by
        have := encodeElems_length enc x xs
        simp only [List.length_append, List.length_cons]
        omega
      have key := decodeElems_encodeElems enc dec xs x _ rest [] hdec hfuel
      simp only [decodeSlice, encodeSlice, List.cons_append, List.append_assoc,
        List.singleton_append, List.nil_append, expectLit_null_bracket, if_true]
      rw [ht] at key ⊢
      simp only [key]
      simp

theorem encodeEntry_head (e : TDdgPayloadEntry) : ∃ t, encodeEntry e = 0x7B :: t := by
  have h : goStr "\x7b\"operation\":" = 0x7B :: goStr "\"operation\":" := by decide
  unfold encodeEntry
  rw [h]
  exact ⟨_, rfl⟩

theorem encodeAttribute_head (a : Attribute) : ∃ t, encodeAttribute a = 0x7B :: t := by
  have h : goStr "\x7b\"key\":" = 0x7B :: goStr "\"key\":" := by decide
  unfold encodeAttribute
  rw [h]
  exact ⟨_, rfl⟩

theorem encodePath_head (p : TDdgPayloadPath) : ∃ t, encodePath p = 0x7B :: t := by
  have h : goStr "\x7b\"path\":" = 0x7B :: goStr "\"path\":" := by decide
  unfold encodePath
  rw [h]
  exact ⟨_, rfl⟩

theorem decodePath_encodePath (p : TDdgPayloadPath) (rest : Bytes) (hv : p.ValidUTF8) :
    decodePath (encodePath p ++ rest) = some (p, rest) := by
  have hP : ∀ r, decodeSlice decodeEntry (encodeSlice encodeEntry p.Path ++ r) = some (p.Path, r) :=
    fun r => decodeSlice_encodeSlice encodeEntry decodeEntry encodeEntry_head p.Path r
      (fun y hy r2 => decodeEntry_encodeEntry y r2 (hv.1 y hy))
  have hA : ∀ r, decodeSlice decodeAttribute (encodeSlice encodeAttribute p.Attributes ++ r)
      = some (p.Attributes, r) :=
    fun r => decodeSlice_encodeSlice encodeAttribute decodeAttribute encodeAttribute_head
      p.Attributes r (fun y hy r2 => decodeAttribute_encodeAttribute y r2 (hv.2 y hy))
  simp [decodePath, encodePath, expectLit_append, hP, hA]

theorem decodePayload_Marshal (p : TDdgPayload) (rest : Bytes) (hv : p.ValidUTF8) :
    decodePayload (Marshal p ++ rest) = some (p, rest) := by
  have hD : ∀ r, decodeSlice decodePath (encodeSlice encodePath p.Dependencies ++ r)
      = some (p.Dependencies, r) :=
    fun r => decodeSlice_encodeSlice encodePath decodePath encodePath_head p.Dependencies r
      (fun y hy r2 => decodePath_encodePath y r2 (hv y hy))
  simp [decodePayload, Marshal, expectLit_append, hD]

theorem Unmarshal_Marshal (p : TDdgPayload) (hv : p.ValidUTF8) :
    Unmarshal (Marshal p) = some p ∧ Unmarshal (Marshal p ++ [0x0A]) = some p := by
  have h1 := decodePayload_Marshal p [] hv
  have h2 := decodePayload_Marshal p [0x0A] hv
  rw [List.append_nil] at h1
  constructor
  · simp [Unmarshal, h1, skipSpace]
  · simp [Unmarshal, h2, skipSpace]

set_option maxRecDepth 100000 in
theorem fixture_valid : fixture.ValidUTF8 := by decide

/-! ## Lemmas on headers and the response writer -/

theorem Header.Values_Set (h : Header) (key value : String) :
    Header.Values (Header.Set h key value) key = [value] := by
  simp [Header.Values, Header.Set]

theorem Header.Get_Set (h : Header) (key value : String) :
    Header.Get (Header.Set h key value) key = value := by
  simp [Header.Get, Header.Values_Set]

theorem Header.find_Del_ne (h : Header) (key key2 : String) (hne : key ≠ key2) :
    (Header.Del h key).find? (fun e => e.1 == key2) = h.find? (fun e => e.1 == key2) := by
  induction h with
  | nil => rfl
  | cons e t ih =>
    unfold Header.Del at ih ⊢
    by_cases h1 : e.1 = key
    · have h2 : e.1 ≠ key2 := fun h3 => hne (h1 ▸ h3)
      have h3 : (e.1 != key) = false := by simp [h1]
      have h4 : (e.1 == key2) = false := by simp [h2]
      simp only [List.filter_cons, List.find?_cons, h3, h4]
      exact ih
    · have h3 : (e.1 != key) = true := by simp [h1]
      by_cases h2 : e.1 = key2
      · have h4 : (e.1 == key2) = true := by simp [h2]
        simp only [List.filter_cons, List.find?_cons, h3, h4, if_true]
      · have h4 : (e.1 == key2) = false := by simp [h2]
        simp only [List.filter_cons, List.find?_cons, h3, h4, if_true]
        exact ih

theorem Header.Values_Set_ne (h : Header) (key key2 value : String) (hne : key ≠ key2) :
    Header.Values (Header.Set h key value) key2 = Header.Values h key2 := by
  have h4 : (key == key2) = false := by simp [hne]
  unfold Header.Values Header.Set
  simp only [List.find?_cons, h4]
  rw [Header.find_Del_ne h key key2 hne]

theorem Write_of_succeed (w : ResponseWriter) (data : Bytes) (hw : w.WritesSucceed) :
    (w.Write data).1.body = w.body ++ data ∧ (w.Write data).2 = none
      ∧ (w.Write data).1.sent = (w.WriteHeader 200).sent
      ∧ (w.Write data).1.header = w.header := by
  unfold ResponseWriter.WritesSucceed at hw
  unfold ResponseWriter.Write
  cases hs : w.script with
  | nil => cases hsent : w.sent <;> simp [ResponseWriter.WriteHeader, hsent]
  | cons o rest =>
    have ho : o = WriteOutcome.ok := hw o (by simp [hs])
    subst ho
    cases hsent : w.sent <;> simp [ResponseWriter.WriteHeader, hsent]

set_option maxRecDepth 100000 in
theorem Marshal_fixture : Marshal fixture = scenarioBody := by decide

theorem getDeepDependencies_of_encoded (h : HTTPGateway) (w : ResponseWriter) (r : Request)
    (henc : (Encode { w with header := Header.Set w.header "Content-Type" "application/json" }
      (h.dependencies r)).2 = none) :
    h.getDeepDependencies w r
      = (ResponseWriter.Write
          { w with header := Header.Set w.header "Content-Type" "application/json" }
          (Marshal fixture ++ [0x0A])).1 := by
  unfold HTTPGateway.getDeepDependencies
  unfold HTTPGateway.dependencies Encode at henc ⊢
  dsimp only at henc ⊢
  revert henc
  generalize ResponseWriter.Write
    { w with header := Header.Set w.header "Content-Type" "application/json" }
    (Marshal fixture ++ [0x0A]) = res
  obtain ⟨w2, e⟩ := res
  intro henc
  simp only at henc
  subst henc
  rfl

theorem getDeepDependencies_of_failed (h : HTTPGateway) (w : ResponseWriter) (r : Request)
    (err : String)
    (henc : (Encode { w with header := Header.Set w.header "Content-Type" "application/json" }
      (h.dependencies r)).2 = some err) :
    h.getDeepDependencies w r
      = httpError (ResponseWriter.Write
          { w with header := Header.Set w.header "Content-Type" "application/json" }
          (Marshal fixture ++ [0x0A])).1 "Failed to encode response" StatusInternalServerError := by
  unfold HTTPGateway.getDeepDependencies
  unfold HTTPGateway.dependencies Encode at henc ⊢
  dsimp only at henc ⊢
  revert henc
  generalize ResponseWriter.Write
    { w with header := Header.Set w.header "Content-Type" "application/json" }
    (Marshal fixture ++ [0x0A]) = res
  obtain ⟨w2, e⟩ := res
  intro henc
  simp only at henc
  subst henc
  rfl

theorem getDeepDependencies_of_succeed (h : HTTPGateway) (w : ResponseWriter) (r : Request)
    (hw : w.WritesSucceed) :
    (h.getDeepDependencies w r).body = w.body ++ scenarioBody ++ [0x0A]
      ∧ (h.getDeepDependencies w r).sent
          = (ResponseWriter.WriteHeader
              { w with header := Header.Set w.header "Content-Type" "application/json" } 200).sent
      ∧ (h.getDeepDependencies w r).header
          = Header.Set w.header "Content-Type" "application/json" := by
  have hw2 : ResponseWriter.WritesSucceed
      { w with header := Header.Set w.header "Content-Type" "application/json" } := hw
  obtain ⟨h1, h2, h3, h4⟩ := Write_of_succeed _ (Marshal fixture ++ [0x0A]) hw2
  rw [getDeepDependencies_of_encoded h w r h2, h1, h3, h4, Marshal_fixture]
  simp only [List.append_assoc, and_self]

theorem getDeepDependencies_of_committed_failure (h : HTTPGateway) (hdr : Header) (n : Nat)
    (err : String) (rest : List WriteOutcome) (r : Request) :
    ∃ hdr2, (h.getDeepDependencies
        (ResponseWriter.fresh hdr (WriteOutcome.fail true n err :: rest)) r).sent = some (200, hdr2)
      ∧ Header.Values hdr2 "Content-Type" = ["application/json"] := by
  have herr : h.encodeError (ResponseWriter.fresh hdr (WriteOutcome.fail true n err :: rest)) r
      = some err := by
    simp [HTTPGateway.encodeError, Encode, ResponseWriter.Write, ResponseWriter.fresh]
  rw [getDeepDependencies_of_failed h _ r err herr]
  refine ⟨Header.Set hdr "Content-Type" "application/json", ?_, Header.Values_Set _ _ _⟩
  cases rest with
  | nil =>
    simp [httpError, ResponseWriter.Write, ResponseWriter.WriteHeader, ResponseWriter.fresh]
  | cons o t =>
    cases o with
    | ok => simp [httpError, ResponseWriter.Write, ResponseWriter.WriteHeader, ResponseWriter.fresh]
    | fail c m e =>
      cases c <;>
        simp [httpError, ResponseWriter.Write, ResponseWriter.WriteHeader, ResponseWriter.fresh]

/-! ## The claims -/

/-- C1 (counterexample).  On a fresh response writer whose writes all succeed
the body written by `getDeepDependencies` is not the scenario's JSON text
alone: the encoder ends the value with a line feed. -/
theorem C1_body_is_not_bare_json :
    (ResponseWriter.fresh [] []).WritesSucceed
      ∧ (HTTPGateway.getDeepDependencies ⟨none, none⟩ (ResponseWriter.fresh [] []) sampleRequest).body
          ≠ scenarioBody := by
  set_option maxRecDepth 100000 in decide

/-- C1 (amended).  For every gateway, request and response writer whose writes
succeed, the bytes `getDeepDependencies` adds to the body are exactly the
scenario's JSON text, keys in the order shown, followed by one line feed byte
and nothing else. -/
theorem C1_body_is_json_then_newline (h : HTTPGateway) (w : ResponseWriter) (r : Request)
    (hw : w.WritesSucceed) :
    (h.getDeepDependencies w r).body = w.body ++ scenarioBody ++ [0x0A] :=
  (getDeepDependencies_of_succeed h w r hw).1

/-- C1 (witness). -/
theorem C1_body_is_json_then_newline_witness :
    (ResponseWriter.fresh [] []).WritesSucceed
      ∧ (HTTPGateway.getDeepDependencies ⟨none, none⟩ (ResponseWriter.fresh [] []) sampleRequest).body
          = (ResponseWriter.fresh [] []).body ++ scenarioBody ++ [0x0A] :=
  ⟨by decide, C1_body_is_json_then_newline ⟨none, none⟩ (ResponseWriter.fresh [] []) sampleRequest
    (by decide)⟩

/-- C2.  For every request on which encoding succeeds, on a response writer
that has not sent its header yet, the response is sent with status 200 and
with a header block, fixed when the first body byte is written, in which
Content-Type has the single value application/json. -/
theorem C2_status_200_json_content_type (h : HTTPGateway) (w : ResponseWriter) (r : Request)
    (hfresh : w.sent = none) (henc : h.encodeError w r = none) :
    (h.getDeepDependencies w r).sent
        = some (200, Header.Set w.header "Content-Type" "application/json")
      ∧ Header.Values (Header.Set w.header "Content-Type" "application/json") "Content-Type"
          = ["application/json"]
      ∧ Header.Get (Header.Set w.header "Content-Type" "application/json") "Content-Type"
          = "application/json" := by
  refine ⟨?_, Header.Values_Set _ _ _, Header.Get_Set _ _ _⟩
  rw [getDeepDependencies_of_encoded h w r henc]
  unfold HTTPGateway.encodeError HTTPGateway.dependencies Encode at henc
  revert henc
  unfold ResponseWriter.Write
  cases hs : w.script with
  | nil => simp [ResponseWriter.WriteHeader, hfresh]
  | cons o rest =>
    cases o with
    | ok => simp [ResponseWriter.WriteHeader, hfresh]
    | fail c n e => cases c <;> simp

/-- C2 (witness). -/
theorem C2_status_200_json_content_type_witness :
    (HTTPGateway.getDeepDependencies ⟨none, none⟩ (ResponseWriter.fresh [] []) sampleRequest).sent
        = some (200, Header.Set (ResponseWriter.fresh [] []).header "Content-Type" "application/json")
      ∧ Header.Values (Header.Set (ResponseWriter.fresh [] []).header "Content-Type"
          "application/json") "Content-Type" = ["application/json"]
      ∧ Header.Get (Header.Set (ResponseWriter.fresh [] []).header "Content-Type"
          "application/json") "Content-Type" = "application/json" :=
  C2_status_200_json_content_type ⟨none, none⟩ (ResponseWriter.fresh [] []) sampleRequest rfl
    (by set_option maxRecDepth 100000 in decide)

/-- C3.  For every span name `s`, wrapped handler `h`, request `r` whose
context carries span `i`, and state: `spanNameHandler s h` runs `h` on the
state in which span `i` has already been named `s` (the call `SetName` is the
first call it logs), and if `h` does not rename the span its name is `s` after
the request, however `h` ends.  The same holds for the handler that `addRoute`
registers, with `s` the route string. -/
theorem C3_span_named_before_handler (gw : HTTPGateway) (s : String) (h : Handler) (r : Request)
    (st : State) (i : Nat) (hspan : r.span = some i)
    (hkeep : ∀ st2 : State, ((h r st2).1.spans i).name = (st2.spans i).name) :
    spanNameHandler s h r st = h r (st.SetName r.span s)
      ∧ ((st.SetName r.span s).spans i).name = s
      ∧ (st.SetName r.span s).calls = st.calls ++ [SpanCall.SetName (some i) s]
      ∧ ((spanNameHandler s h r st).1.spans i).name = s
      ∧ (((gw.addRoute h s).handler r st).1.spans i).name = s := by
  have hname : ((st.SetName r.span s).spans i).name = s := by
    simp [State.SetName, hspan]
  refine ⟨rfl, hname, ?_, ?_, ?_⟩
  · simp [State.SetName, hspan]
  · show ((h r (st.SetName r.span s)).1.spans i).name = s
    rw [hkeep, hname]
  · show ((h r ((st.SetName r.span s).SetAttributes r.span "http.route" s)).1.spans i).name = s
    rw [hkeep]
    simp [State.SetAttributes, State.SetName, hspan]

/-- C3 (witness). -/
theorem C3_span_named_before_handler_witness :
    spanNameHandler "op" idleHandler sampleRequest State.initial
        = idleHandler sampleRequest (State.initial.SetName sampleRequest.span "op")
      ∧ ((State.initial.SetName sampleRequest.span "op").spans 0).name = "op"
      ∧ (State.initial.SetName sampleRequest.span "op").calls
          = State.initial.calls ++ [SpanCall.SetName (some 0) "op"]
      ∧ ((spanNameHandler "op" idleHandler sampleRequest State.initial).1.spans 0).name = "op"
      ∧ (((HTTPGateway.addRoute ⟨none, none⟩ idleHandler "op").handler sampleRequest
          State.initial).1.spans 0).name = "op" :=
  C3_span_named_before_handler ⟨none, none⟩ "op" idleHandler sampleRequest State.initial 0 rfl
    (fun _ => rfl)

/-- C4 (counterexample).  On a fresh writer whose first write fails without
touching the response, encoding returns an error and the status sent is 500,
yet the body is not the bare message: `http.Error` ends it with a line feed. -/
theorem C4_error_body_is_not_bare_message :
    HTTPGateway.encodeError ⟨none, none⟩
        (ResponseWriter.fresh [] [WriteOutcome.fail false 0 "boom"]) sampleRequest = some "boom"
      ∧ (HTTPGateway.getDeepDependencies ⟨none, none⟩
          (ResponseWriter.fresh [] [WriteOutcome.fail false 0 "boom"]) sampleRequest).sent.map
            Prod.fst = some 500
      ∧ (HTTPGateway.getDeepDependencies ⟨none, none⟩
          (ResponseWriter.fresh [] [WriteOutcome.fail false 0 "boom"]) sampleRequest).body
          ≠ goStr "Failed to encode response" := by
  set_option maxRecDepth 100000 in decide

/-- C4 (amended).  For every request on which encoding returns an error from
a write that left the response untouched, on a writer that has not sent its
header and whose next write succeeds, `getDeepDependencies` sends status 500
with Content-Type `text/plain; charset=utf-8` (not application/json) and adds
to the body the static text "Failed to encode response" followed by a line
feed; the body does not depend on the error value. -/
theorem C4_error_response_is_static (h : HTTPGateway) (w : ResponseWriter) (r : Request)
    (n : Nat) (err : String) (rest : List WriteOutcome)
    (hfresh : w.sent = none)
    (hscript : w.script = WriteOutcome.fail false n err :: rest)
    (hnext : ∀ o ∈ rest, o = WriteOutcome.ok) :
    h.encodeError w r = some err
      ∧ (∃ hdr, (h.getDeepDependencies w r).sent = some (500, hdr)
          ∧ Header.Values hdr "Content-Type" = ["text/plain; charset=utf-8"]
          ∧ Header.Values hdr "X-Content-Type-Options" = ["nosniff"])
      ∧ (h.getDeepDependencies w r).body = w.body ++ goStr "Failed to encode response" ++ [0x0A] := by
  have herr : h.encodeError w r = some err := by
    simp [HTTPGateway.encodeError, Encode, ResponseWriter.Write, hscript]
  refine ⟨herr, ?_⟩
  rw [getDeepDependencies_of_failed h w r err herr]
  have hW : (ResponseWriter.Write
      { w with header := Header.Set w.header "Content-Type" "application/json" }
      (Marshal fixture ++ [0x0A])).1
      = { w with header := Header.Set w.header "Content-Type" "application/json", script := rest } := by
    simp [ResponseWriter.Write, hscript]
  rw [hW]
  have hrest : ResponseWriter.WritesSucceed
      (ResponseWriter.WriteHeader
        { w with
          header := Header.Set (Header.Set (Header.Del
            (Header.Set w.header "Content-Type" "application/json") "Content-Length")
            "Content-Type" "text/plain; charset=utf-8") "X-Content-Type-Options" "nosniff",
          script := rest } StatusInternalServerError) := by
    simp only [ResponseWriter.WriteHeader, hfresh]
    exact hnext
  obtain ⟨h1, -, h3, -⟩ := Write_of_succeed _ (goStr "Failed to encode response" ++ [0x0A]) hrest
  unfold httpError
  dsimp only
  refine ⟨⟨Header.Set (Header.Set (Header.Del
      (Header.Set w.header "Content-Type" "application/json") "Content-Length")
      "Content-Type" "text/plain; charset=utf-8") "X-Content-Type-Options" "nosniff", ?_, ?_, ?_⟩, ?_⟩
  · rw [h3]
    simp only [ResponseWriter.WriteHeader, hfresh, StatusInternalServerError]
  · rw [Header.Values_Set_ne _ _ _ _ (by decide), Header.Values_Set]
  · rw [Header.Values_Set]
  · rw [h1]
    simp only [ResponseWriter.WriteHeader, hfresh, List.append_assoc]

/-- C4 (witness). -/
theorem C4_error_response_is_static_witness :
    HTTPGateway.encodeError ⟨none, none⟩
        (ResponseWriter.fresh [] [WriteOutcome.fail false 0 "boom"]) sampleRequest = some "boom"
      ∧ (∃ hdr, (HTTPGateway.getDeepDependencies ⟨none, none⟩
            (ResponseWriter.fresh [] [WriteOutcome.fail false 0 "boom"]) sampleRequest).sent
            = some (500, hdr)
          ∧ Header.Values hdr "Content-Type" = ["text/plain; charset=utf-8"]
          ∧ Header.Values hdr "X-Content-Type-Options" = ["nosniff"])
      ∧ (HTTPGateway.getDeepDependencies ⟨none, none⟩
          (ResponseWriter.fresh [] [WriteOutcome.fail false 0 "boom"]) sampleRequest).body
          = (ResponseWriter.fresh [] [WriteOutcome.fail false 0 "boom"]).body
            ++ goStr "Failed to encode response" ++ [0x0A] :=
  C4_error_response_is_static ⟨none, none⟩
    (ResponseWriter.fresh [] [WriteOutcome.fail false 0 "boom"]) sampleRequest 0 "boom" []
    rfl rfl (by simp)

/-- C5 (counterexample).  Two payloads that differ in one string, the single
invalid byte `0xFF` against `0xFE`, have the same JSON encoding, so no decoder
returns both; decoding the encoding of the first yields the payload with
U+FFFD in place of the invalid byte, not the payload itself. -/
theorem C5_invalid_utf8_is_not_restored :
    Marshal invalidUTF8Payload = Marshal otherInvalidUTF8Payload
      ∧ invalidUTF8Payload ≠ otherInvalidUTF8Payload
      ∧ Unmarshal (Marshal invalidUTF8Payload) = some replacedUTF8Payload
      ∧ Unmarshal (Marshal invalidUTF8Payload) ≠ some invalidUTF8Payload := by
  set_option maxRecDepth 100000 in decide

/-- C5 (amended).  For every `TDdgPayload` all of whose strings are valid
UTF-8 (any number of paths, entries and attributes, nil or empty slices,
duplicates allowed), decoding its JSON encoding, with or without the encoder's
final line feed, yields a payload equal to it, so the dependencies, every
path's entries and every path's attributes come back in the same order; in
particular the body `getDeepDependencies` writes to a fresh writer whose
writes succeed decodes to the payload it serialised. -/
theorem C5_round_trip_of_valid_utf8 (p : TDdgPayload) (hv : p.ValidUTF8)
    (gw : HTTPGateway) (hdr : Header) (script : List WriteOutcome) (r : Request)
    (hw : (ResponseWriter.fresh hdr script).WritesSucceed) :
    Unmarshal (Marshal p) = some p
      ∧ Unmarshal (Marshal p ++ [0x0A]) = some p
      ∧ Unmarshal (gw.getDeepDependencies (ResponseWriter.fresh hdr script) r).body
          = some (gw.dependencies r) := by
  refine ⟨(Unmarshal_Marshal p hv).1, (Unmarshal_Marshal p hv).2, ?_⟩
  rw [(getDeepDependencies_of_succeed gw _ r hw).1, ← Marshal_fixture]
  exact (Unmarshal_Marshal fixture fixture_valid).2

/-- C5 (witness). -/
theorem C5_round_trip_of_valid_utf8_witness :
    Unmarshal (Marshal fixture) = some fixture
      ∧ Unmarshal (Marshal fixture ++ [0x0A]) = some fixture
      ∧ Unmarshal (HTTPGateway.getDeepDependencies ⟨none, none⟩ (ResponseWriter.fresh [] [])
          sampleRequest).body = some (HTTPGateway.dependencies ⟨none, none⟩ sampleRequest) :=
  C5_round_trip_of_valid_utf8 fixture (by set_option maxRecDepth 100000 in decide)
    ⟨none, none⟩ [] [] sampleRequest (by decide)

/-- C6 (counterexample).  The payload whose `Dependencies` is the nil slice
has no elements, and its JSON encoding is `\x7b"dependencies":null\x7d`, not
`\x7b"dependencies":[]\x7d`. -/
theorem C6_nil_dependencies_encode_as_null :
    sliceLen (TDdgPayload.mk none).Dependencies = 0
      ∧ Marshal (TDdgPayload.mk none) = goStr "\x7b\"dependencies\":null\x7d"
      ∧ Marshal (TDdgPayload.mk none) ≠ goStr "\x7b\"dependencies\":[]\x7d" := by
  decide

/-- C6 (amended).  For every `TDdgPayload` whose `Dependencies` has no
elements, the field "dependencies" is present in the JSON encoding (never
omitted); the encoding is `\x7b"dependencies":[]\x7d` when the slice is
non-nil and `\x7b"dependencies":null\x7d` when it is nil. -/
theorem C6_empty_dependencies_encoding (p : TDdgPayload) (hlen : sliceLen p.Dependencies = 0) :
    (∃ t, Marshal p = goStr "\x7b\"dependencies\":" ++ t)
      ∧ Marshal p = (if p.Dependencies.isSome then goStr "\x7b\"dependencies\":[]\x7d"
          else goStr "\x7b\"dependencies\":null\x7d") := by
  obtain ⟨deps⟩ := p
  refine ⟨⟨_, rfl⟩, ?_⟩
  cases deps with
  | none => decide
  | some xs =>
    cases xs with
    | nil => decide
    | cons x t => simp [sliceLen] at hlen

/-- C6 (witness). -/
theorem C6_empty_dependencies_encoding_witness :
    (∃ t, Marshal (TDdgPayload.mk (some [])) = goStr "\x7b\"dependencies\":" ++ t)
      ∧ Marshal (TDdgPayload.mk (some []))
          = (if (TDdgPayload.mk (some [])).Dependencies.isSome
              then goStr "\x7b\"dependencies\":[]\x7d"
              else goStr "\x7b\"dependencies\":null\x7d") :=
  C6_empty_dependencies_encoding (TDdgPayload.mk (some [])) (by decide)

/-- C7.  For any two gateways and any two requests, `getDeepDependencies` acts
identically on a given response writer; and on any two fresh writers whose
writes succeed, whatever their initial headers, it writes byte-identical
bodies and the same Content-Type header. -/
theorem C7_response_independent_of_request (h1 h2 : HTTPGateway) (r1 r2 : Request)
    (w : ResponseWriter) (hdr1 hdr2 : Header) (s1 s2 : List WriteOutcome)
    (hw1 : (ResponseWriter.fresh hdr1 s1).WritesSucceed)
    (hw2 : (ResponseWriter.fresh hdr2 s2).WritesSucceed) :
    h1.getDeepDependencies w r1 = h2.getDeepDependencies w r2
      ∧ (h1.getDeepDependencies (ResponseWriter.fresh hdr1 s1) r1).body
          = (h2.getDeepDependencies (ResponseWriter.fresh hdr2 s2) r2).body
      ∧ Header.Values (h1.getDeepDependencies (ResponseWriter.fresh hdr1 s1) r1).header
            "Content-Type"
          = Header.Values (h2.getDeepDependencies (ResponseWriter.fresh hdr2 s2) r2).header
            "Content-Type" := by
  obtain ⟨b1, -, e1⟩ := getDeepDependencies_of_succeed h1 _ r1 hw1
  obtain ⟨b2, -, e2⟩ := getDeepDependencies_of_succeed h2 _ r2 hw2
  refine ⟨rfl, ?_, ?_⟩
  · rw [b1, b2]; rfl
  · rw [e1, e2, Header.Values_Set, Header.Values_Set]

/-- C7 (witness). -/
theorem C7_response_independent_of_request_witness :
    HTTPGateway.getDeepDependencies ⟨none, none⟩
          (ResponseWriter.fresh [] [WriteOutcome.fail true 3 "reset"]) sampleRequest
        = HTTPGateway.getDeepDependencies ⟨some ⟨Except.ok []⟩, some ()⟩
          (ResponseWriter.fresh [] [WriteOutcome.fail true 3 "reset"]) otherRequest
      ∧ (HTTPGateway.getDeepDependencies ⟨none, none⟩ (ResponseWriter.fresh [] []) sampleRequest).body
          = (HTTPGateway.getDeepDependencies ⟨some ⟨Except.ok []⟩, some ()⟩
              (ResponseWriter.fresh [("Content-Type", ["text/html"])] [WriteOutcome.ok])
              otherRequest).body
      ∧ Header.Values
            (HTTPGateway.getDeepDependencies ⟨none, none⟩ (ResponseWriter.fresh [] [])
              sampleRequest).header "Content-Type"
          = Header.Values
            (HTTPGateway.getDeepDependencies ⟨some ⟨Except.ok []⟩, some ()⟩
              (ResponseWriter.fresh [("Content-Type", ["text/html"])] [WriteOutcome.ok])
              otherRequest).header "Content-Type" :=
  C7_response_independent_of_request ⟨none, none⟩ ⟨some ⟨Except.ok []⟩, some ()⟩ sampleRequest
    otherRequest (ResponseWriter.fresh [] [WriteOutcome.fail true 3 "reset"])
    [] [("Content-Type", ["text/html"])] [] [WriteOutcome.ok] (by decide) (by decide)

/-- C8 (counterexample).  For a gateway whose collaborator returns the empty
result, the payload `getDeepDependencies` serialises is not the mapping of
that result. -/
theorem C8_payload_ignores_collaborator :
    HTTPGateway.dependencies ⟨some ⟨Except.ok []⟩, none⟩ sampleRequest ≠ toPayload [] := by
  decide

/-- C8 (amended).  Whatever `HTTPGateway.QueryService` holds (the handler
never calls it), the payload `getDeepDependencies` serialises is the mapping
into the `TDdgPayload` shape of one fixed call path, serviceA/opA then
serviceB/opB with the attribute exemplar_trace_id = abc123, nodes and
attributes in that order; the handler's effect is the same for every gateway
value. -/
theorem C8_payload_is_fixed_path (gw gw2 : HTTPGateway) (r : Request) (w : ResponseWriter) :
    gw.dependencies r = toPayload [fixturePath]
      ∧ gw.getDeepDependencies w r = gw2.getDeepDependencies w r
      ∧ gw.getDeepDependencies w r = (match Encode
            { w with header := Header.Set w.header "Content-Type" "application/json" }
            (toPayload [fixturePath]) with
          | (w, some _) => httpError w "Failed to encode response" StatusInternalServerError
          | (w, none) => w) :=
  ⟨rfl, rfl, rfl⟩

/-- C9.  The route that `RegisterRoutes` adds has the pattern
"/api/deep-dependencies/" and the method GET, and its handler is the span-name
layer and the route-tag layer, both given that same literal, around
`getDeepDependencies`; on every request the span name set and the route tag
set are that literal, only the span they are set on coming from the request. -/
theorem C9_route_literal_for_tag_and_span_name (h : HTTPGateway) (router : Router) :
    ∃ rt : Route, (h.RegisterRoutes router).routes = router.routes ++ [rt]
      ∧ rt.pattern = "/api/deep-dependencies/"
      ∧ rt.methods = ["GET"]
      ∧ rt.handler = spanNameHandler "/api/deep-dependencies/"
          (WithRouteTag "/api/deep-dependencies/" h.getDeepDependenciesHandler)
      ∧ ∀ (r : Request) (st : State), (rt.handler r st).1.calls = st.calls ++
          [SpanCall.SetName r.span "/api/deep-dependencies/",
           SpanCall.SetAttributes r.span "http.route" "/api/deep-dependencies/"] := by
  refine ⟨_, rfl, rfl, rfl, rfl, ?_⟩
  intro r st
  show (((st.SetName r.span _).SetAttributes r.span "http.route" _)).calls = _
  cases r.span <;> simp [State.SetName, State.SetAttributes, routeGetDeepDependencies]

/-- C10 (counterexample).  For a handler function that does nothing, the
calls made by the chain `addRoute` registers are the span naming first and the
route tagging second, which is not the order of a chain whose outermost layer
is the route tag. -/
theorem C10_route_tag_is_not_outermost :
    ((HTTPGateway.addRoute ⟨none, none⟩ idleHandler "/r").handler sampleRequest State.initial).1.calls
        = [SpanCall.SetName (some 0) "/r", SpanCall.SetAttributes (some 0) "http.route" "/r"]
      ∧ ((HTTPGateway.addRoute ⟨none, none⟩ idleHandler "/r").handler sampleRequest
          State.initial).1.calls
        ≠ (routeTagOutermost idleHandler "/r" sampleRequest State.initial).1.calls := by
  decide

/-- C10 (amended).  In the handler chain that `addRoute` registers, the
span-name layer wraps the route-tag layer, which wraps the handler function:
on every request the span-naming layer runs first (outermost), then the
route-tagging layer, then the handler function `f`, each exactly once. -/
theorem C10_span_name_layer_is_outermost (gw : HTTPGateway) (f : Handler) (route : String)
    (r : Request) (st : State) :
    (gw.addRoute f route).handler = spanNameHandler route (WithRouteTag route f)
      ∧ (gw.addRoute f route).handler r st
          = f r ((st.SetName r.span route).SetAttributes r.span "http.route" route)
      ∧ ((st.SetName r.span route).SetAttributes r.span "http.route" route).calls
          = st.calls ++ [SpanCall.SetName r.span route,
              SpanCall.SetAttributes r.span "http.route" route] := by
  refine ⟨rfl, rfl, ?_⟩
  cases r.span <;> simp [State.SetName, State.SetAttributes]

end Analytics
